import Mathlib

/-!
Verification of the grid spatial index core of pylidar
(pylidar/lidarformats/gridindexutils.py and pylidar/lidarformats/spdv4_index.py),
shallowly embedded in Lean.

World coordinates (Python floats) are modelled as exact rationals.
Numpy arrays are modelled either as lists or as shape-plus-contents
(a size together with a total function giving the entries).
-/

namespace Pylidar

/-- Truncation toward zero of a rational, the semantics of Python `int(...)`
applied to a float value. -/
def intTrunc (q : ℚ) : ℤ :=
  if q < 0 then -Int.floor (-q) else Int.floor q

theorem intTrunc_intCast (a : ℤ) : intTrunc (a : ℚ) = a := by
  unfold intTrunc
  split
  · rw [← Int.cast_neg, Int.floor_intCast]; omega
  · exact Int.floor_intCast a

theorem ceil_eq_neg_floor (q : ℚ) : ⌈q⌉ = -⌊-q⌋ := by
  rw [Int.floor_neg, neg_neg]

/-- The pixel grid geometry of a spatial index, as used by
`getSlicesForExtent` and the SPDV4 index: world coordinate of the top-left
corner plus the (square) bin resolution. -/
structure PixGrid where
  xMin : ℚ
  xMax : ℚ
  yMin : ℚ
  yMax : ℚ
  xRes : ℚ
  yRes : ℚ
  deriving DecidableEq

/-- A python `slice(lo, hi)` with integer bounds. -/
structure SliceP where
  lo : ℤ
  hi : ℤ
  deriving DecidableEq, Repr

/-- Embedding of `gridindexutils.getSlicesForExtent`.  Returns the
(image slice, spatial-index slice) pair, each a (row slice, col slice)
pair, or `none` where the Python code returns `(None, None)`. -/
def getSlicesForExtent (siPixGrid : PixGrid) (siShape : ℕ × ℕ) (overlap : ℤ)
    (xMin xMax yMin yMax : ℚ) : Option ((SliceP × SliceP) × (SliceP × SliceP)) :=
  let xoff := intTrunc ((xMin - siPixGrid.xMin) / siPixGrid.xRes)
  let yoff := intTrunc ((siPixGrid.yMax - yMax) / siPixGrid.yRes)
  let xright := Int.ceil ((xMax - siPixGrid.xMin) / siPixGrid.xRes)
  let xbottom := Int.ceil ((siPixGrid.yMax - yMin) / siPixGrid.yRes)
  let xsize := xright - xoff
  let ysize := xbottom - yoff
  let xoff_margin := xoff - overlap
  let yoff_margin := yoff - overlap
  let xSize_margin := xsize + overlap * 2
  let ySize_margin := ysize + overlap * 2
  let imgRightBound : ℤ := siShape.2
  let imgBottomBound : ℤ := siShape.1
  let xoff_margin_file := min (max xoff_margin 0) imgRightBound
  let xright_margin_file := min (xoff_margin + xSize_margin) imgRightBound
  let xSize_margin_file := xright_margin_file - xoff_margin_file
  let yoff_margin_file := min (max yoff_margin 0) imgBottomBound
  let ybottom_margin_file := min (yoff_margin + ySize_margin) imgBottomBound
  let ySize_margin_file := ybottom_margin_file - yoff_margin_file
  let notRead_left := xoff_margin_file - xoff_margin
  let notRead_right := xSize_margin - (notRead_left + xSize_margin_file)
  let notRead_top := yoff_margin_file - yoff_margin
  let notRead_bottom := ySize_margin - (notRead_top + ySize_margin_file)
  let slice_right := xSize_margin - notRead_right
  let slice_bottom := ySize_margin - notRead_bottom
  if 0 < xSize_margin_file ∧ 0 < ySize_margin_file then
    some ((⟨notRead_top, slice_bottom⟩, ⟨notRead_left, slice_right⟩),
          (⟨yoff_margin_file, yoff_margin_file + ySize_margin_file⟩,
           ⟨xoff_margin_file, xoff_margin_file + xSize_margin_file⟩))
  else
    none

/-- Helper for `updateBoolArray`: walks the bool list keeping the current
read position `maskIdx` into `mask`, mirroring the loop in
`gridindexutils.updateBoolArray`. -/
def updateBoolArrayAux (mask : List Bool) : List Bool → ℕ → List Bool
  | [], _ => []
  | b :: bs, maskIdx =>
    if b then mask.getD maskIdx false :: updateBoolArrayAux mask bs (maskIdx + 1)
    else b :: updateBoolArrayAux mask bs maskIdx

/-- Embedding of `gridindexutils.updateBoolArray`: every `true` entry of
`boolArray` is replaced in order by the next entry of `mask`. -/
def updateBoolArray (boolArray mask : List Bool) : List Bool :=
  updateBoolArrayAux mask boolArray 0

/-- Grid geometry handed to `CreateSpatialIndex`: bin size, world coordinate
of the top-left corner (`coordOneMax`, `coordTwoMin`) and the grid shape. -/
structure Grid where
  binSize : ℚ
  coordOneMax : ℚ
  coordTwoMin : ℚ
  nRows : ℕ
  nCols : ℕ

/-- Bin row of one element: `numpy.floor((coordOneMax - coordOne) / binSize)`. -/
def rowOf (g : Grid) (c : ℚ × ℚ) : ℤ :=
  ⌊(g.coordOneMax - c.1) / g.binSize⌋

/-- Bin column of one element: `numpy.floor((coordTwo - coordTwoMin) / binSize)`. -/
def colOf (g : Grid) (c : ℚ × ℚ) : ℤ :=
  ⌊(c.2 - g.coordTwoMin) / g.binSize⌋

/-- One entry of the `validMask` computed by `CreateSpatialIndex`:
`(row >= 0) & (col >= 0) & (row < nRows) & (col < nCols)`. -/
def isValid (g : Grid) (c : ℚ × ℚ) : Bool :=
  decide (0 ≤ rowOf g c ∧ 0 ≤ colOf g c ∧ rowOf g c < g.nRows ∧ colOf g c < g.nCols)

/-- Combined bin number `row * nCols + col` of a (valid) element, after the
`astype(numpy.uint32)` conversion of the nonnegative row and column. -/
def binNumOf (g : Grid) (c : ℚ × ℚ) : ℕ :=
  (rowOf g c).toNat * g.nCols + (colOf g c).toNat

/-- Embedding of `numpy.argsort` on a list of keys: the indices
`0, ..., n-1` sorted by their key (a stable sort realising one valid
argsort result). -/
def argsort (key : List ℕ) : List ℕ :=
  List.insertionSort (fun i j => key.getD i 0 ≤ key.getD j 0) (List.range key.length)

/-- Embedding of `gridindexutils.BuildSpatialIndexInternal`.

The 2D output arrays `si_start` / `si_count` are modelled as total
functions from the flattened (row-major) bin number `row * nCols + col`;
the source decodes `row = bn // nCols`, `col = bn % nCols` and writes
`si_start[row, col]`, i.e. flat position `row * nCols + col = bn` again.
The first argument is the list of bin numbers of the elements in sorted
order (`binNum[sortedBinNumNdx[i]]` for `i = 0, 1, ...`), the second the
current loop counter `i`. -/
def BuildSpatialIndexInternal :
    List ℕ → ℕ → (ℕ → ℕ) → (ℕ → ℕ) → (ℕ → ℕ) × (ℕ → ℕ)
  | [], _, si_start, si_count => (si_start, si_count)
  | bn :: rest, i, si_start, si_count =>
    BuildSpatialIndexInternal rest (i + 1)
      (if si_count bn = 0 then Function.update si_start bn i else si_start)
      (Function.update si_count bn (si_count bn + 1))

/-- Embedding of `gridindexutils.CreateSpatialIndex` on the parallel
coordinate arrays zipped into a single list of pairs
(`coordOne`, `coordTwo`).  Returns `(validMask, sortedBins, si_start,
si_count)` with the start/count arrays as flattened row-major functions. -/
def CreateSpatialIndex (coords : List (ℚ × ℚ)) (g : Grid) :
    List Bool × List ℕ × (ℕ → ℕ) × (ℕ → ℕ) :=
  let validMask := coords.map (isValid g)
  let validCoords := coords.filter (isValid g)
  let binNum := validCoords.map (binNumOf g)
  let sortedBinNumNdx := argsort binNum
  let si := BuildSpatialIndexInternal
    (sortedBinNumNdx.map (fun i => binNum.getD i 0)) 0
    (fun _ => 0) (fun _ => 0)
  (validMask, sortedBinNumNdx, si.1, si.2)

section Convert

variable {β : Type} [DecidableEq β]

/-- State of the first pass of `convertIdxBool2D` / `convertIdxBool1D`:
the selection array `outBool` (size `outSize`, modelled as a total
function) and the recorded bin of each selected absolute index
(the `outRow` / `outCol` scratch arrays, combined into one `β`-valued
function; `β` is `ℕ × ℕ` for the 2D variant and `ℕ` for 1D). -/
structure MarkState (β : Type) where
  outBool : ℕ → Bool
  outBin : ℕ → β

/-- Inner loop `for i in range(cnt)` of the first pass: marks
`outBool[startidx + i] = True` and records the bin. -/
def markRun (b : β) (startidx cnt : ℕ) (st : MarkState β) : MarkState β :=
  (List.range cnt).foldl
    (fun st i =>
      ⟨Function.update st.outBool (startidx + i) true,
       Function.update st.outBin (startidx + i) b⟩)
    st

/-- First pass over all bins, in the order the given enumeration lists
them (column-major for the 2D variant, row order for 1D). -/
def markRuns (bins : List (β × ℕ × ℕ)) (st : MarkState β) : MarkState β :=
  bins.foldl (fun st t => markRun t.1 t.2.1 t.2.2 st) st

/-- State of the second pass: per-bin slot counters `counts`, the ragged
index `outIdx` and validity mask `outMask` (indexed by slot and bin), and
the running `counter` of selected elements. -/
structure AssignState (β : Type) where
  counts : β → ℕ
  outIdx : ℕ × β → ℕ
  outMask : ℕ × β → Bool
  counter : ℕ

/-- The body of the second-pass loop of `convertIdxBool2D` /
`convertIdxBool1D` at absolute index `j`. -/
def stepAssign (outBool : ℕ → Bool) (outBin : ℕ → β) (j : ℕ)
    (st : AssignState β) : AssignState β :=
  if outBool j then
    let b := outBin j
    let c := st.counts b
    { counts := Function.update st.counts b (c + 1)
      outIdx := Function.update st.outIdx (c, b) st.counter
      outMask := Function.update st.outMask (c, b) false
      counter := st.counter + 1 }
  else
    st

/-- The second pass `for j in range(n)` with `counts` initialised to zero,
`outIdx` to zero and `outMask` to all-`True`. -/
def assignPass (outBool : ℕ → Bool) (outBin : ℕ → β) : ℕ → AssignState β
  | 0 => ⟨fun _ => 0, fun _ => 0, fun _ => true, 0⟩
  | n + 1 => stepAssign outBool outBin n (assignPass outBool outBin n)

/-- The bin enumeration of `convertIdxBool2D`:
`for col in range(nCols): for row in range(nRows)`, each bin paired with
its start index and count. -/
def bins2D (start count : ℕ → ℕ → ℕ) (nRows nCols : ℕ) :
    List ((ℕ × ℕ) × ℕ × ℕ) :=
  (List.range nCols).flatMap fun col =>
    (List.range nRows).map fun row => ((row, col), start row col, count row col)

/-- The bin enumeration of `convertIdxBool1D`: `for row in range(nRows)`. -/
def bins1D (start count : ℕ → ℕ) (nRows : ℕ) : List (ℕ × ℕ × ℕ) :=
  (List.range nRows).map fun row => (row, start row, count row)

/-- Embedding of `gridindexutils.convertIdxBool2D` (both passes). -/
def convertIdxBool2D (start count : ℕ → ℕ → ℕ) (nRows nCols outSize : ℕ) :
    MarkState (ℕ × ℕ) × AssignState (ℕ × ℕ) :=
  let mk := markRuns (bins2D start count nRows nCols) ⟨fun _ => false, fun _ => (0, 0)⟩
  (mk, assignPass mk.outBool mk.outBin outSize)

/-- Embedding of `gridindexutils.convertIdxBool1D` (both passes). -/
def convertIdxBool1D (start count : ℕ → ℕ) (nRows outSize : ℕ) :
    MarkState ℕ × AssignState ℕ :=
  let mk := markRuns (bins1D start count nRows) ⟨fun _ => false, fun _ => 0⟩
  (mk, assignPass mk.outBool mk.outBin outSize)

/-- Maximum entry of a 2D count array (`count_array.max()`), as a fold
over the row-major flattening. -/
def gridMax2D (count : ℕ → ℕ → ℕ) (nRows nCols : ℕ) : ℕ :=
  ((List.range nRows).flatMap fun r => (List.range nCols).map (count r)).foldl max 0

/-- Maximum entry of a 1D count array. -/
def gridMax1D (count : ℕ → ℕ) (nRows : ℕ) : ℕ :=
  ((List.range nRows).map count).foldl max 0

/-- A ragged output array of `convertSPDIdxToReadIdxAndMaskInfo`: the
size of the leading (slot) axis together with the entries, the trailing
axes being the bin coordinates `β` of the index that was passed in. -/
structure RaggedArr (β γ : Type) where
  lead : ℕ
  entry : ℕ × β → γ

/-- Embedding of the 2D branch of
`gridindexutils.convertSPDIdxToReadIdxAndMaskInfo`: returns the boolean
selection array for h5py (`outSize` long), the ragged index and the
ragged mask, the latter two with leading dimension
`count_array.max() if count_array.size > 0 else 0`. -/
def convertSPDIdxToReadIdxAndMaskInfo2D (start count : ℕ → ℕ → ℕ)
    (nRows nCols outSize : ℕ) :
    List Bool × RaggedArr (ℕ × ℕ) ℕ × RaggedArr (ℕ × ℕ) Bool :=
  let maxCount := if 0 < nRows * nCols then gridMax2D count nRows nCols else 0
  let res := convertIdxBool2D start count nRows nCols outSize
  ((List.range outSize).map res.1.outBool,
   ⟨maxCount, res.2.outIdx⟩, ⟨maxCount, res.2.outMask⟩)

/-- Embedding of the 1D branch of
`gridindexutils.convertSPDIdxToReadIdxAndMaskInfo`. -/
def convertSPDIdxToReadIdxAndMaskInfo1D (start count : ℕ → ℕ)
    (nRows outSize : ℕ) :
    List Bool × RaggedArr ℕ ℕ × RaggedArr ℕ Bool :=
  let maxCount := if 0 < nRows then gridMax1D count nRows else 0
  let res := convertIdxBool1D start count nRows outSize
  ((List.range outSize).map res.1.outBool,
   ⟨maxCount, res.2.outIdx⟩, ⟨maxCount, res.2.outMask⟩)

end Convert

/-- Modelled from the spec: the `Extent` record of the pylidar generic
driver layer (not part of the analysed sources) — a query window in world
coordinates (min/max row-axis, min/max column-axis), per the data model
section of the specification. -/
structure Extent where
  xMin : ℚ
  xMax : ℚ
  yMin : ℚ
  yMax : ℚ
  deriving DecidableEq

/-- Modelled from the spec: `rios.pixelgrid.PixelGridDefn.snapToGrid`
(an external collaborator of the analysed sources) — snaps a world
coordinate to the nearest grid line of the grid with resolution `res`
passing through `valOn`. -/
def snapToGrid (val valOn res : ℚ) : ℚ :=
  valOn + round ((val - valOn) / res) * res

/-- A pulse record; only the two spatial index columns
(`Y_IDX` and `X_IDX` for a Cartesian index) are relevant to the claims. -/
structure Pulse where
  yIdx : ℚ
  xIdx : ℚ
  deriving DecidableEq, Inhabited

/-- Numpy boolean-mask indexing `arr[mask]`. -/
def boolIndex {α : Type} (l : List α) (mask : List Bool) : List α :=
  (l.zip mask).filterMap fun ab => if ab.2 then some ab.1 else none

/-- Numpy integer fancy indexing `arr[idx]`. -/
def fancyIndex {α : Type} [Inhabited α] (l : List α) (idx : List ℕ) : List α :=
  idx.map fun i => l.getD i default

/-- Numpy 2D slice assignment `dst[dstSl] = src[srcSl]` on arrays modelled
as total functions over integer (row, col) positions; the two slice pairs
have equal extents wherever this is used. -/
def sliceAssign (dst : ℤ × ℤ → ℕ) (dstSl : SliceP × SliceP)
    (src : ℤ × ℤ → ℕ) (srcSl : SliceP × SliceP) : ℤ × ℤ → ℕ :=
  fun rc =>
    if dstSl.1.lo ≤ rc.1 ∧ rc.1 < dstSl.1.hi ∧ dstSl.2.lo ≤ rc.2 ∧ rc.2 < dstSl.2.hi then
      src (srcSl.1.lo + (rc.1 - dstSl.1.lo), srcSl.2.lo + (rc.2 - dstSl.2.lo))
    else
      dst rc

/-- A flattened row-major spatial index array (as produced by
`CreateSpatialIndex`) viewed as a 2D array with `ncols` columns. -/
def toFlat (f : ℕ → ℕ) (ncols : ℕ) : ℤ × ℤ → ℕ :=
  fun rc => f (rc.1.toNat * ncols + rc.2.toNat)

/-- The mutable state of a `SPDV4SimpleGridSpatialIndex` instance together
with the parts of the SPDV4 file it reads: the pixel grid, the persisted
start/count arrays `si_idx` / `si_cnt` with their shape, the size of the
PULSES dataset, and the one-entry extent cache. -/
structure GridIndex where
  pixelGrid : PixGrid
  siShape : ℕ × ℕ
  si_cnt : ℤ × ℤ → ℕ
  si_idx : ℤ × ℤ → ℕ
  nPulses : ℕ
  lastExtent : Option Extent
  lastPulseSpace : List Bool
  lastPulseIdx : RaggedArr (ℕ × ℕ) ℕ
  lastPulseIdxMask : RaggedArr (ℕ × ℕ) Bool

/-- Embedding of `SPDV4SimpleGridSpatialIndex.getSISubset`: snaps the
extent, sizes the working tile, and copies the visible part of the
persisted start/count arrays into freshly zeroed subsets using
`getSlicesForExtent`.  Returns `(idx_subset, cnt_subset, nrows, ncols)`. -/
def getSISubset (st : GridIndex) (extent : Extent) (overlap : ℤ) :
    (ℤ × ℤ → ℕ) × (ℤ × ℤ → ℕ) × ℤ × ℤ :=
  let pixGrid := st.pixelGrid
  let xMin := snapToGrid extent.xMin pixGrid.xMin pixGrid.xRes
  let xMax := snapToGrid extent.xMax pixGrid.xMax pixGrid.xRes
  let yMin := snapToGrid extent.yMin pixGrid.yMin pixGrid.yRes
  let yMax := snapToGrid extent.yMax pixGrid.yMax pixGrid.yRes
  let nrows := ⌈(yMax - yMin) / pixGrid.yRes⌉ + overlap * 2
  let ncols := ⌈(xMax - xMin) / pixGrid.xRes⌉ + overlap * 2
  let zero : ℤ × ℤ → ℕ := fun _ => 0
  match getSlicesForExtent pixGrid st.siShape overlap xMin xMax yMin yMax with
  | some (imageSlice, siSlice) =>
      (sliceAssign zero imageSlice st.si_idx siSlice,
       sliceAssign zero imageSlice st.si_cnt siSlice, nrows, ncols)
  | none => (zero, zero, nrows, ncols)

/-- The result triple of a pulse-level space query:
(selection array, ragged index, ragged mask). -/
def PulseSpaceResult : Type :=
  List Bool × RaggedArr (ℕ × ℕ) ℕ × RaggedArr (ℕ × ℕ) Bool

/-- The cache-miss computation of
`SPDV4SimpleGridSpatialIndex.getPulsesSpaceForExtent`: read the spatial
index subset for the extent and convert it against the PULSES dataset
size. -/
def computePulsesSpaceForExtent (st : GridIndex) (extent : Extent)
    (overlap : ℤ) : PulseSpaceResult :=
  let sub := getSISubset st extent overlap
  convertSPDIdxToReadIdxAndMaskInfo2D
    (fun r c => sub.1 ((r : ℤ), (c : ℤ)))
    (fun r c => sub.2.1 ((r : ℤ), (c : ℤ)))
    sub.2.2.1.toNat sub.2.2.2.toNat st.nPulses

/-- Embedding of `SPDV4SimpleGridSpatialIndex.getPulsesSpaceForExtent`
including the one-entry extent cache; returns the result triple and the
updated instance state. -/
def getPulsesSpaceForExtent (st : GridIndex) (extent : Extent) (overlap : ℤ) :
    PulseSpaceResult × GridIndex :=
  if st.lastExtent = some extent then
    ((st.lastPulseSpace, st.lastPulseIdx, st.lastPulseIdxMask), st)
  else
    let res := computePulsesSpaceForExtent st extent overlap
    (res, { st with
            lastExtent := some extent
            lastPulseSpace := res.1
            lastPulseIdx := res.2.1
            lastPulseIdxMask := res.2.2 })

/-- Embedding of `SPDV4SimpleGridSpatialIndex.setPulsesForExtent`:
builds a fresh batch index with `CreateSpatialIndex`, offsets its start
values by `lastPulseID`, writes start/count into the persisted arrays at
the slices located with margin 0, and returns the bin-sorted batch with
the validity mask and sort permutation, plus the updated state. -/
def setPulsesForExtent (st : GridIndex) (extent : Extent) (pulses : List Pulse)
    (lastPulseID : ℕ) : (List Pulse × List Bool × List ℕ) × GridIndex :=
  let g := st.pixelGrid
  let xMin := snapToGrid extent.xMin g.xMin g.xRes
  let xMax := snapToGrid extent.xMax g.xMax g.xRes
  let yMin := snapToGrid extent.yMin g.yMin g.yRes
  let yMax := snapToGrid extent.yMax g.yMax g.yRes
  let nrows := (⌈(yMax - yMin) / g.xRes⌉).toNat
  let ncols := (⌈(xMax - xMin) / g.xRes⌉).toNat
  let csi := CreateSpatialIndex (pulses.map fun p => (p.yIdx, p.xIdx))
      ⟨g.xRes, yMax, xMin, nrows, ncols⟩
  let mask := csi.1
  let sortedBins := csi.2.1
  let idx_subset : ℕ → ℕ := fun bn => csi.2.2.1 bn + lastPulseID
  let cnt_subset : ℕ → ℕ := csi.2.2.2
  let st2 :=
    match getSlicesForExtent g st.siShape 0 xMin xMax yMin yMax with
    | some (imageSlice, siSlice) =>
        { st with
          si_cnt := sliceAssign st.si_cnt siSlice (toFlat cnt_subset ncols) imageSlice
          si_idx := sliceAssign st.si_idx siSlice (toFlat idx_subset ncols) imageSlice }
    | none => st
  ((fancyIndex (boolIndex pulses mask) sortedBins, mask, sortedBins), st2)

/-! ### Properties of updateBoolArray -/

theorem updateBoolArrayAux_getD (mask : List Bool) :
    ∀ (bs : List Bool) (i n : ℕ),
      (updateBoolArrayAux mask bs i).getD n false =
        (bs.getD n false && mask.getD (i + (bs.take n).count true) false)
  | [], i, n => by simp [updateBoolArrayAux]
  | b :: bs, i, 0 => by cases b <;> simp [updateBoolArrayAux]
  | b :: bs, i, n + 1 => by
    cases b
    · simpa [updateBoolArrayAux] using updateBoolArrayAux_getD mask bs i n
    · have ih := updateBoolArrayAux_getD mask bs (i + 1) n
      simp only [updateBoolArrayAux, if_true, List.getD_cons_succ, List.take_succ_cons,
        List.count_cons, beq_self_eq_true] at *
      rw [show i + (List.count true (List.take n bs) + 1) =
          i + 1 + List.count true (List.take n bs) from by omega]
      exact ih

/-- C10: `updateBoolArray b m` replaces the k-th `true` entry of `b`
(in increasing index order) by `m[k]` and leaves `false` entries
unchanged: after the update, position `n` holds
`b[n] && m[(number of true entries of b before n)]`. -/
theorem updateBoolArray_spec (b mask : List Bool)
    (_hmask : b.count true ≤ mask.length) (n : ℕ) :
    (updateBoolArray b mask).getD n false =
      (b.getD n false && mask.getD ((b.take n).count true) false) := by
  simpa using updateBoolArrayAux_getD mask b 0 n

theorem updateBoolArray_spec_witness :
    ([true, false, true] : List Bool).count true ≤ ([false, true] : List Bool).length ∧
      (updateBoolArray [true, false, true] [false, true]).getD 2 false =
        (([true, false, true] : List Bool).getD 2 false &&
          ([false, true] : List Bool).getD
            ((([true, false, true] : List Bool).take 2).count true) false) :=
  ⟨by decide, updateBoolArray_spec [true, false, true] [false, true] (by decide) 2⟩

/-! ### Properties of getSlicesForExtent -/

/-- C9: whenever `getSlicesForExtent` returns slices, the image
(destination) slice and the spatial-index (source) slice have equal
height and width, the source slice lies inside the grid
`[0, siShape.1) x [0, siShape.2)`, and the destination slice lies inside
the margin-expanded destination block, so the copy between the two
regions is shape-compatible and in bounds. -/
theorem getSlicesForExtent_some_compatible (g : PixGrid) (H W : ℕ) (ov : ℤ)
    (xMin xMax yMin yMax : ℚ) (img si : SliceP × SliceP)
    (h : getSlicesForExtent g (H, W) ov xMin xMax yMin yMax = some (img, si)) :
    img.1.hi - img.1.lo = si.1.hi - si.1.lo ∧
    img.2.hi - img.2.lo = si.2.hi - si.2.lo ∧
    0 ≤ si.1.lo ∧ si.1.lo < si.1.hi ∧ si.1.hi ≤ (H : ℤ) ∧
    0 ≤ si.2.lo ∧ si.2.lo < si.2.hi ∧ si.2.hi ≤ (W : ℤ) ∧
    0 ≤ img.1.lo ∧ img.1.lo < img.1.hi ∧
    img.1.hi ≤ ⌈(g.yMax - yMin) / g.yRes⌉ - intTrunc ((g.yMax - yMax) / g.yRes) + ov * 2 ∧
    0 ≤ img.2.lo ∧ img.2.lo < img.2.hi ∧
    img.2.hi ≤ ⌈(xMax - g.xMin) / g.xRes⌉ - intTrunc ((xMin - g.xMin) / g.xRes) + ov * 2 := by
  obtain ⟨⟨i1lo, i1hi⟩, ⟨i2lo, i2hi⟩⟩ := img
  obtain ⟨⟨s1lo, s1hi⟩, ⟨s2lo, s2hi⟩⟩ := si
  dsimp only
  simp only [getSlicesForExtent] at h
  split_ifs at h with hc
  obtain ⟨hcx, hcy⟩ := hc
  simp only [Option.some.injEq, Prod.mk.injEq, SliceP.mk.injEq] at h
  obtain ⟨⟨⟨hi1lo, hi1hi⟩, hi2lo, hi2hi⟩, ⟨hs1lo, hs1hi⟩, hs2lo, hs2hi⟩ := h
  refine ⟨?_, ?_, ?_, ?_, ?_, ?_, ?_, ?_, ?_, ?_, ?_, ?_, ?_, ?_⟩ <;> omega

/-- C5: for a bin-snapped query window (`a`, `b`, `t`, `btm` are the
window bounds in bin coordinates) and a nonnegative margin `ov`,
`getSlicesForExtent` returns `(None, None)` exactly when the
margin-expanded window clamped to the grid has zero area in a dimension;
otherwise the source slice is the margin-expanded window clamped to
`[0, H) x [0, W)` and the destination slice is inset into the
`(btm - t + 2 ov) x (b - a + 2 ov)` destination block on each side by
exactly the number of bins clipped off that side.  The final conjunct is
the concrete scenario: 10x10 grid, margin 1, window rows `[2,4)` cols
`[2,4)` gives a 4x4 destination with no padding and source rows `[1,5)`
cols `[1,5)`. -/
theorem getSlicesForExtent_spec (g : PixGrid) (H W : ℕ) (ov a b t btm : ℤ)
    (hx : 0 < g.xRes) (hy : 0 < g.yRes) (hov : 0 ≤ ov)
    (hab : a ≤ b) (htb : t ≤ btm) :
    (getSlicesForExtent g (H, W) ov (g.xMin + a * g.xRes) (g.xMin + b * g.xRes)
        (g.yMax - btm * g.yRes) (g.yMax - t * g.yRes) = none ↔
      min (b + ov) (W : ℤ) ≤ max (a - ov) 0 ∨ min (btm + ov) (H : ℤ) ≤ max (t - ov) 0) ∧
    (∀ img si,
      getSlicesForExtent g (H, W) ov (g.xMin + a * g.xRes) (g.xMin + b * g.xRes)
          (g.yMax - btm * g.yRes) (g.yMax - t * g.yRes) = some (img, si) →
      si.1.lo = max (t - ov) 0 ∧ si.1.hi = min (btm + ov) (H : ℤ) ∧
      si.2.lo = max (a - ov) 0 ∧ si.2.hi = min (b + ov) (W : ℤ) ∧
      img.1.lo = max (t - ov) 0 - (t - ov) ∧
      img.1.hi = (btm - t + ov * 2) - ((btm + ov) - min (btm + ov) (H : ℤ)) ∧
      img.2.lo = max (a - ov) 0 - (a - ov) ∧
      img.2.hi = (b - a + ov * 2) - ((b + ov) - min (b + ov) (W : ℤ))) ∧
    getSlicesForExtent ⟨0, 10, 0, 10, 1, 1⟩ (10, 10) 1 2 4 6 8 =
      some ((⟨0, 4⟩, ⟨0, 4⟩), (⟨1, 5⟩, ⟨1, 5⟩)) := by
  have hx0 : g.xRes ≠ 0 := ne_of_gt hx
  have hy0 : g.yRes ≠ 0 := ne_of_gt hy
  have ex1 : (g.xMin + (a : ℚ) * g.xRes - g.xMin) / g.xRes = ((a : ℤ) : ℚ) := by
    field_simp
  have ex2 : (g.xMin + (b : ℚ) * g.xRes - g.xMin) / g.xRes = ((b : ℤ) : ℚ) := by
    field_simp
  have ey1 : (g.yMax - (g.yMax - (t : ℚ) * g.yRes)) / g.yRes = ((t : ℤ) : ℚ) := by
    field_simp
  have ey2 : (g.yMax - (g.yMax - (btm : ℚ) * g.yRes)) / g.yRes = ((btm : ℤ) : ℚ) := by
    field_simp
  have hD :
      getSlicesForExtent g (H, W) ov (g.xMin + a * g.xRes) (g.xMin + b * g.xRes)
          (g.yMax - btm * g.yRes) (g.yMax - t * g.yRes) =
        (if 0 < min (b + ov) (W : ℤ) - min (max (a - ov) 0) (W : ℤ) ∧
            0 < min (btm + ov) (H : ℤ) - min (max (t - ov) 0) (H : ℤ) then
          some
            ((⟨min (max (t - ov) 0) (H : ℤ) - (t - ov),
               (btm - t + ov * 2) - ((btm + ov) - min (btm + ov) (H : ℤ))⟩,
              ⟨min (max (a - ov) 0) (W : ℤ) - (a - ov),
               (b - a + ov * 2) - ((b + ov) - min (b + ov) (W : ℤ))⟩),
             (⟨min (max (t - ov) 0) (H : ℤ), min (btm + ov) (H : ℤ)⟩,
              ⟨min (max (a - ov) 0) (W : ℤ), min (b + ov) (W : ℤ)⟩))
        else none) := by
    simp only [getSlicesForExtent, ex1, ex2, ey1, ey2, intTrunc_intCast, Int.ceil_intCast]
    by_cases hc :
        0 < min (b + ov) (W : ℤ) - min (max (a - ov) 0) (W : ℤ) ∧
          0 < min (btm + ov) (H : ℤ) - min (max (t - ov) 0) (H : ℤ)
    · rw [if_pos hc, if_pos (by omega)]
      simp only [Option.some.injEq, Prod.mk.injEq, SliceP.mk.injEq]
      refine ⟨⟨⟨?_, ?_⟩, ?_, ?_⟩, ⟨?_, ?_⟩, ?_, ?_⟩ <;> first | trivial | omega
    · rw [if_neg hc, if_neg (by omega)]
  refine ⟨?_, ?_, ?_⟩
  · rw [hD]
    constructor
    · intro hnone
      by_contra hcon
      rw [if_pos (by omega)] at hnone
      exact Option.some_ne_none _ hnone
    · intro hzero
      rw [if_neg (by omega)]
  · intro img si hsome
    obtain ⟨⟨i1lo, i1hi⟩, ⟨i2lo, i2hi⟩⟩ := img
    obtain ⟨⟨s1lo, s1hi⟩, ⟨s2lo, s2hi⟩⟩ := si
    dsimp only
    rw [hD] at hsome
    split_ifs at hsome with hc
    simp only [Option.some.injEq, Prod.mk.injEq, SliceP.mk.injEq] at hsome
    obtain ⟨⟨⟨hi1lo, hi1hi⟩, hi2lo, hi2hi⟩, ⟨hs1lo, hs1hi⟩, hs2lo, hs2hi⟩ := hsome
    refine ⟨?_, ?_, ?_, ?_, ?_, ?_, ?_, ?_⟩ <;> omega
  · simp only [getSlicesForExtent, intTrunc, ceil_eq_neg_floor]
    norm_num

theorem getSlicesForExtent_some_compatible_witness :
    getSlicesForExtent ⟨0, 10, 0, 10, 1, 1⟩ (10, 10) 1 2 4 6 8 =
        some ((⟨0, 4⟩, ⟨0, 4⟩), (⟨1, 5⟩, ⟨1, 5⟩)) ∧
      ((4 : ℤ) - 0 = 5 - 1 ∧ (4 : ℤ) - 0 = 5 - 1 ∧
        (0 : ℤ) ≤ 1 ∧ (1 : ℤ) < 5 ∧ (5 : ℤ) ≤ ((10 : ℕ) : ℤ) ∧
        (0 : ℤ) ≤ 1 ∧ (1 : ℤ) < 5 ∧ (5 : ℤ) ≤ ((10 : ℕ) : ℤ) ∧
        (0 : ℤ) ≤ 0 ∧ (0 : ℤ) < 4 ∧
        (4 : ℤ) ≤ ⌈((10 : ℚ) - 6) / 1⌉ - intTrunc (((10 : ℚ) - 8) / 1) + 1 * 2 ∧
        (0 : ℤ) ≤ 0 ∧ (0 : ℤ) < 4 ∧
        (4 : ℤ) ≤ ⌈((4 : ℚ) - 0) / 1⌉ - intTrunc (((2 : ℚ) - 0) / 1) + 1 * 2) := by
  have hEq : getSlicesForExtent ⟨0, 10, 0, 10, 1, 1⟩ (10, 10) 1 2 4 6 8 =
      some ((⟨0, 4⟩, ⟨0, 4⟩), (⟨1, 5⟩, ⟨1, 5⟩)) := by
    simp only [getSlicesForExtent, intTrunc, ceil_eq_neg_floor]
    norm_num
  exact ⟨hEq,
    getSlicesForExtent_some_compatible ⟨0, 10, 0, 10, 1, 1⟩ 10 10 1 2 4 6 8
      (⟨0, 4⟩, ⟨0, 4⟩) (⟨1, 5⟩, ⟨1, 5⟩) hEq⟩

theorem getSlicesForExtent_spec_witness :
    (0 : ℚ) < 1 ∧ (0 : ℤ) ≤ 1 ∧ (2 : ℤ) ≤ 4 ∧
      (getSlicesForExtent ⟨0, 10, 0, 10, 1, 1⟩ (10, 10) 1
          (0 + (2 : ℤ) * 1) (0 + (4 : ℤ) * 1) (10 - (4 : ℤ) * 1) (10 - (2 : ℤ) * 1) = none ↔
        min ((4 : ℤ) + 1) ((10 : ℕ) : ℤ) ≤ max ((2 : ℤ) - 1) 0 ∨
          min ((4 : ℤ) + 1) ((10 : ℕ) : ℤ) ≤ max ((2 : ℤ) - 1) 0) := by
  have h := getSlicesForExtent_spec ⟨0, 10, 0, 10, 1, 1⟩ 10 10 1 2 4 2 4
    (by norm_num) (by norm_num) (by norm_num) (by norm_num) (by norm_num)
  exact ⟨by norm_num, by norm_num, by norm_num, h.1⟩

/-! ### Properties of the mark pass of the sparse-to-dense converter -/

section ConvertLemmas

variable {β : Type}

theorem markRun_succ (b : β) (s c : ℕ) (st : MarkState β) :
    markRun b s (c + 1) st =
      ⟨Function.update (markRun b s c st).outBool (s + c) true,
       Function.update (markRun b s c st).outBin (s + c) b⟩ := by
  simp [markRun, List.range_succ]

theorem markRun_outBool (b : β) (s : ℕ) (st : MarkState β) (j : ℕ) :
    ∀ c, (markRun b s c st).outBool j =
      (st.outBool j || decide (s ≤ j ∧ j < s + c))
  | 0 => by
    have hfalse : ¬(s ≤ j ∧ j < s + 0) := by omega
    simp [markRun, hfalse]
  | c + 1 => by
    rw [markRun_succ]
    dsimp only
    by_cases hj : j = s + c
    · subst hj
      have htrue : s ≤ s + c ∧ s + c < s + (c + 1) := by omega
      simp [Function.update_same, htrue]
    · rw [Function.update_noteq hj]
      rw [markRun_outBool b s st j c]
      congr 1
      simp only [decide_eq_decide]
      omega

theorem markRun_outBin (b : β) (s : ℕ) (st : MarkState β) (j : ℕ) :
    ∀ c, (markRun b s c st).outBin j =
      if s ≤ j ∧ j < s + c then b else st.outBin j
  | 0 => by
    rw [if_neg (by omega)]
    simp [markRun]
  | c + 1 => by
    rw [markRun_succ]
    dsimp only
    by_cases hj : j = s + c
    · subst hj
      simp only [Function.update_same]
      rw [if_pos (by omega)]
    · rw [Function.update_noteq hj]
      rw [markRun_outBin b s st j c]
      by_cases hin : s ≤ j ∧ j < s + c
      · rw [if_pos hin, if_pos (by omega)]
      · rw [if_neg hin, if_neg (by omega)]

theorem markRuns_cons (t : β × ℕ × ℕ) (rest : List (β × ℕ × ℕ)) (st : MarkState β) :
    markRuns (t :: rest) st = markRuns rest (markRun t.1 t.2.1 t.2.2 st) :=
  rfl

theorem markRuns_outBool (j : ℕ) :
    ∀ (bins : List (β × ℕ × ℕ)) (st : MarkState β),
      (markRuns bins st).outBool j =
        (st.outBool j || bins.any fun t => decide (t.2.1 ≤ j ∧ j < t.2.1 + t.2.2))
  | [], st => by simp [markRuns]
  | t :: rest, st => by
    rw [markRuns_cons, markRuns_outBool j rest, markRun_outBool]
    simp [Bool.or_assoc]

theorem markRuns_outBin_of_notin (j : ℕ) :
    ∀ (bins : List (β × ℕ × ℕ)) (st : MarkState β),
      (∀ t ∈ bins, ¬(t.2.1 ≤ j ∧ j < t.2.1 + t.2.2)) →
      (markRuns bins st).outBin j = st.outBin j
  | [], _, _ => rfl
  | t :: rest, st, h => by
    rw [markRuns_cons,
      markRuns_outBin_of_notin j rest _ (fun t' ht' => h t' (List.mem_cons_of_mem _ ht')),
      markRun_outBin]
    rw [if_neg (h t (List.mem_cons_self _ _))]

theorem markRuns_outBin (j : ℕ) (bkey : β) :
    ∀ (bins : List (β × ℕ × ℕ)) (st : MarkState β),
      (∃ t ∈ bins, t.2.1 ≤ j ∧ j < t.2.1 + t.2.2) →
      (∀ t ∈ bins, t.2.1 ≤ j ∧ j < t.2.1 + t.2.2 → t.1 = bkey) →
      (markRuns bins st).outBin j = bkey
  | [], _, hex, _ => by simp at hex
  | t :: rest, st, hex, hall => by
    rw [markRuns_cons]
    by_cases hrest : ∃ t' ∈ rest, t'.2.1 ≤ j ∧ j < t'.2.1 + t'.2.2
    · exact markRuns_outBin j bkey rest _ hrest
        (fun t' ht' => hall t' (List.mem_cons_of_mem _ ht'))
    · have hnone : ∀ t' ∈ rest, ¬(t'.2.1 ≤ j ∧ j < t'.2.1 + t'.2.2) :=
        fun t' ht' hp => hrest ⟨t', ht', hp⟩
      rw [markRuns_outBin_of_notin j rest _ hnone, markRun_outBin]
      by_cases htj : t.2.1 ≤ j ∧ j < t.2.1 + t.2.2
      · rw [if_pos htj]
        exact hall t (List.mem_cons_self _ _) htj
      · obtain ⟨t0, ht0, hrun0⟩ := hex
        rcases List.mem_cons.mp ht0 with h0 | h0
        · exact absurd hrun0 (h0 ▸ htj)
        · exact absurd ⟨t0, h0, hrun0⟩ hrest

end ConvertLemmas

/-! ### Properties of the assign pass of the sparse-to-dense converter -/

theorem countP_range_succ (p : ℕ → Bool) (n : ℕ) :
    (List.range (n + 1)).countP p = (List.range n).countP p + if p n then 1 else 0 := by
  rw [List.range_succ, List.countP_append]
  simp [List.countP_cons]

theorem countP_range_lt_of (p : ℕ → Bool) (j : ℕ) (hp : p j = true) :
    ∀ n, j < n → (List.range j).countP p < (List.range n).countP p := by
  intro n
  induction n with
  | zero => omega
  | succ n ih =>
    intro hj
    rw [countP_range_succ]
    rcases Nat.lt_succ_iff_lt_or_eq.mp hj with h | h
    · have := ih h
      by_cases hn : p n <;> simp [hn] <;> omega
    · subst h
      simp [hp]

section AssignLemmas

variable {β : Type} [DecidableEq β]

theorem assignPass_counter (sel : ℕ → Bool) (binf : ℕ → β) :
    ∀ n, (assignPass sel binf n).counter = (List.range n).countP sel
  | 0 => by simp [assignPass]
  | n + 1 => by
    simp only [assignPass, countP_range_succ]
    by_cases hs : sel n
    · simp [stepAssign, hs, assignPass_counter sel binf n]
    · simp [stepAssign, hs, assignPass_counter sel binf n]

theorem assignPass_counts (sel : ℕ → Bool) (binf : ℕ → β) (b : β) :
    ∀ n, (assignPass sel binf n).counts b =
      (List.range n).countP fun j => sel j && decide (binf j = b)
  | 0 => by simp [assignPass]
  | n + 1 => by
    simp only [assignPass, countP_range_succ]
    by_cases hs : sel n
    · by_cases hb : binf n = b
      · subst hb
        simp [stepAssign, hs, Function.update_same,
          assignPass_counts sel binf (binf n) n]
      · have hb' : b ≠ binf n := fun h => hb h.symm
        simp [stepAssign, hs, Function.update_noteq hb', hb,
          assignPass_counts sel binf b n]
    · simp [stepAssign, hs, assignPass_counts sel binf b n]

theorem assignPass_outMask (sel : ℕ → Bool) (binf : ℕ → β) (s : ℕ) (b : β) :
    ∀ n, ((assignPass sel binf n).outMask (s, b) = false ↔
      s < (List.range n).countP fun j => sel j && decide (binf j = b))
  | 0 => by simp [assignPass]
  | n + 1 => by
    simp only [assignPass, countP_range_succ]
    by_cases hs : sel n
    · by_cases hb : binf n = b
      · subst hb
        have hc := assignPass_counts sel binf (binf n) n
        simp only [stepAssign, hs, if_true]
        by_cases hse : s = (assignPass sel binf n).counts (binf n)
        · subst hse
          rw [Function.update_same, hc]
          simp [hs]
        · have hne : (s, binf n) ≠ ((assignPass sel binf n).counts (binf n), binf n) :=
            fun hcon => hse (congrArg Prod.fst hcon)
          rw [Function.update_noteq hne, assignPass_outMask sel binf s (binf n) n]
          rw [hc] at hse
          simp
          omega
      · have hb' : b ≠ binf n := fun h => hb h.symm
        have hne : (s, b) ≠ ((assignPass sel binf n).counts (binf n), binf n) :=
          fun hcon => hb' (congrArg Prod.snd hcon)
        simp only [stepAssign, hs, if_true]
        rw [Function.update_noteq hne]
        simp [hb, assignPass_outMask sel binf s b n]
    · simp [stepAssign, hs, assignPass_outMask sel binf s b n]

theorem assignPass_outIdx (sel : ℕ → Bool) (binf : ℕ → β) :
    ∀ n j, j < n → sel j = true →
      (assignPass sel binf n).outIdx
          ((List.range j).countP (fun i => sel i && decide (binf i = binf j)), binf j) =
        (List.range j).countP sel
  | 0, j, hj, _ => absurd hj (by omega)
  | n + 1, j, hj, hsel => by
    simp only [assignPass]
    by_cases hjn : j = n
    · subst hjn
      have hc := assignPass_counts sel binf (binf j) j
      have hcounter := assignPass_counter sel binf j
      simp only [stepAssign, hsel, if_true]
      rw [← hc, ← hcounter, Function.update_same]
    · have hjn' : j < n := by omega
      have ih := assignPass_outIdx sel binf n j hjn' hsel
      by_cases hs : sel n
      · simp only [stepAssign, hs, if_true]
        by_cases hbb : binf n = binf j
        · have hlt : (List.range j).countP (fun i => sel i && decide (binf i = binf j)) <
              (assignPass sel binf n).counts (binf n) := by
            rw [assignPass_counts, hbb]
            exact countP_range_lt_of _ j (by simp [hsel]) n hjn'
          have hne :
              ((List.range j).countP (fun i => sel i && decide (binf i = binf j)), binf j) ≠
                ((assignPass sel binf n).counts (binf n), binf n) :=
            fun hcon => absurd (congrArg Prod.fst hcon) (by simp; omega)
          rw [Function.update_noteq hne]
          exact ih
        · have hne :
              ((List.range j).countP (fun i => sel i && decide (binf i = binf j)), binf j) ≠
                ((assignPass sel binf n).counts (binf n), binf n) :=
            fun hcon => hbb ((congrArg Prod.snd hcon)).symm
          rw [Function.update_noteq hne]
          exact ih
      · simpa [stepAssign, hs] using ih

end AssignLemmas

/-! ### The converter instantiated at the 2D and 1D bin enumerations -/

theorem mem_bins2D (start count : ℕ → ℕ → ℕ) (nRows nCols : ℕ)
    (t : (ℕ × ℕ) × ℕ × ℕ) :
    t ∈ bins2D start count nRows nCols ↔
      ∃ r, r < nRows ∧ ∃ c, c < nCols ∧ t = ((r, c), start r c, count r c) := by
  constructor
  · intro ht
    simp only [bins2D, List.mem_flatMap, List.mem_map, List.mem_range] at ht
    obtain ⟨col, hcol, row, hrow, heq⟩ := ht
    exact ⟨row, hrow, col, hcol, heq.symm⟩
  · rintro ⟨r, hr, c, hc, rfl⟩
    simp only [bins2D, List.mem_flatMap, List.mem_map, List.mem_range]
    exact ⟨c, hc, r, hr, rfl⟩

theorem mem_bins1D (start count : ℕ → ℕ) (nRows : ℕ) (t : ℕ × ℕ × ℕ) :
    t ∈ bins1D start count nRows ↔
      ∃ r, r < nRows ∧ t = (r, start r, count r) := by
  constructor
  · intro ht
    simp only [bins1D, List.mem_map, List.mem_range] at ht
    obtain ⟨row, hrow, heq⟩ := ht
    exact ⟨row, hrow, heq.symm⟩
  · rintro ⟨r, hr, rfl⟩
    simp only [bins1D, List.mem_map, List.mem_range]
    exact ⟨r, hr, rfl⟩

theorem convert2D_outBool (start count : ℕ → ℕ → ℕ) (nRows nCols : ℕ) (j : ℕ) :
    ((convertIdxBool2D start count nRows nCols 0).1.outBool j = true ↔
      ∃ r, r < nRows ∧ ∃ c, c < nCols ∧ start r c ≤ j ∧ j < start r c + count r c) := by
  show ((markRuns (bins2D start count nRows nCols)
      ⟨fun _ => false, fun _ => (0, 0)⟩).outBool j = true ↔ _)
  rw [markRuns_outBool]
  simp only [Bool.false_or, List.any_eq_true]
  constructor
  · rintro ⟨t, ht, hrun⟩
    rw [mem_bins2D] at ht
    obtain ⟨r, hr, c, hc, rfl⟩ := ht
    rw [decide_eq_true_eq] at hrun
    exact ⟨r, hr, c, hc, hrun⟩
  · rintro ⟨r, hr, c, hc, hrun⟩
    exact ⟨((r, c), start r c, count r c),
      (mem_bins2D start count nRows nCols _).2 ⟨r, hr, c, hc, rfl⟩,
      by simpa using hrun⟩

theorem convert1D_outBool (start count : ℕ → ℕ) (nRows : ℕ) (j : ℕ) :
    ((convertIdxBool1D start count nRows 0).1.outBool j = true ↔
      ∃ r, r < nRows ∧ start r ≤ j ∧ j < start r + count r) := by
  show ((markRuns (bins1D start count nRows)
      ⟨fun _ => false, fun _ => 0⟩).outBool j = true ↔ _)
  rw [markRuns_outBool]
  simp only [Bool.false_or, List.any_eq_true]
  constructor
  · rintro ⟨t, ht, hrun⟩
    rw [mem_bins1D] at ht
    obtain ⟨r, hr, rfl⟩ := ht
    rw [decide_eq_true_eq] at hrun
    exact ⟨r, hr, hrun⟩
  · rintro ⟨r, hr, hrun⟩
    exact ⟨(r, start r, count r),
      (mem_bins1D start count nRows _).2 ⟨r, hr, rfl⟩,
      by simpa using hrun⟩

theorem getD_map_range (f : ℕ → Bool) (n j : ℕ) (hj : j < n) :
    ((List.range n).map f).getD j false = f j := by
  rw [List.getD_eq_getElem?_getD]
  simp [List.getElem?_range, hj]

/-- C2: for every start/count index (2D or 1D) and dataset size `outSize`,
the selection mask returned by `convertSPDIdxToReadIdxAndMaskInfo` has
length `outSize` and is true at absolute index `j` exactly when `j` lies
in some bin's run `[start[bin], start[bin] + count[bin])`. -/
theorem convertSPDIdx_selectionMask_spec
    (start2 count2 : ℕ → ℕ → ℕ) (nRows2 nCols2 : ℕ)
    (start1 count1 : ℕ → ℕ) (nRows1 outSize : ℕ) :
    ((convertSPDIdxToReadIdxAndMaskInfo2D start2 count2 nRows2 nCols2 outSize).1.length =
        outSize ∧
      ∀ j, j < outSize →
        ((convertSPDIdxToReadIdxAndMaskInfo2D start2 count2 nRows2 nCols2
              outSize).1.getD j false = true ↔
          ∃ r, r < nRows2 ∧ ∃ c, c < nCols2 ∧
            start2 r c ≤ j ∧ j < start2 r c + count2 r c)) ∧
    ((convertSPDIdxToReadIdxAndMaskInfo1D start1 count1 nRows1 outSize).1.length =
        outSize ∧
      ∀ j, j < outSize →
        ((convertSPDIdxToReadIdxAndMaskInfo1D start1 count1 nRows1
              outSize).1.getD j false = true ↔
          ∃ r, r < nRows1 ∧ start1 r ≤ j ∧ j < start1 r + count1 r)) := by
  refine ⟨⟨?_, ?_⟩, ?_, ?_⟩
  · show ((List.range outSize).map
      (convertIdxBool2D start2 count2 nRows2 nCols2 outSize).1.outBool).length = outSize
    simp
  · intro j hj
    show (((List.range outSize).map
      (convertIdxBool2D start2 count2 nRows2 nCols2 outSize).1.outBool).getD j false = true ↔ _)
    rw [getD_map_range _ _ _ hj]
    exact convert2D_outBool start2 count2 nRows2 nCols2 j
  · show ((List.range outSize).map
      (convertIdxBool1D start1 count1 nRows1 outSize).1.outBool).length = outSize
    simp
  · intro j hj
    show (((List.range outSize).map
      (convertIdxBool1D start1 count1 nRows1 outSize).1.outBool).getD j false = true ↔ _)
    rw [getD_map_range _ _ _ hj]
    exact convert1D_outBool start1 count1 nRows1 j

theorem convertSPDIdx_selectionMask_spec_witness :
    (2 : ℕ) < 3 ∧
      ((convertSPDIdxToReadIdxAndMaskInfo1D (fun r => [0, 0, 2].getD r 0)
            (fun r => [2, 0, 1].getD r 0) 3 3).1.getD 2 false = true ↔
        ∃ r, r < 3 ∧ [0, 0, 2].getD r 0 ≤ 2 ∧ 2 < [0, 0, 2].getD r 0 + [2, 0, 1].getD r 0) :=
  ⟨by decide,
    (convertSPDIdx_selectionMask_spec (fun _ _ => 0) (fun _ _ => 0) 0 0
      (fun r => [0, 0, 2].getD r 0) (fun r => [2, 0, 1].getD r 0) 3 3).2.2 2 (by decide)⟩

/-- C8 as stated is false: with an empty count array but a nonzero dataset
size, the selection mask has length `outSize` (here 1), not zero. -/
theorem convertSPDIdx_empty_counterexample :
    ¬((convertSPDIdxToReadIdxAndMaskInfo1D (fun _ => 0) (fun _ => 0) 0 1).1.length = 0) := by
  decide

theorem bins2D_eq_nil (start count : ℕ → ℕ → ℕ) (nRows nCols : ℕ)
    (h : nRows * nCols = 0) : bins2D start count nRows nCols = [] := by
  rcases Nat.mul_eq_zero.mp h with h0 | h0 <;> subst h0 <;> simp [bins2D]

/-- C8 amended: with a count array of total size 0, the ragged index and
validity mask have a zero-size leading dimension and the selection mask is
the all-false mask of length `outSize` (zero-length only when `outSize` is
itself zero). -/
theorem convertSPDIdx_empty_spec (outSize : ℕ) :
    (∀ (start count : ℕ → ℕ → ℕ) (nRows nCols : ℕ), nRows * nCols = 0 →
      (convertSPDIdxToReadIdxAndMaskInfo2D start count nRows nCols outSize).1 =
          List.replicate outSize false ∧
        (convertSPDIdxToReadIdxAndMaskInfo2D start count nRows nCols outSize).2.1.lead = 0 ∧
        (convertSPDIdxToReadIdxAndMaskInfo2D start count nRows nCols outSize).2.2.lead = 0) ∧
    (∀ start count : ℕ → ℕ,
      (convertSPDIdxToReadIdxAndMaskInfo1D start count 0 outSize).1 =
          List.replicate outSize false ∧
        (convertSPDIdxToReadIdxAndMaskInfo1D start count 0 outSize).2.1.lead = 0 ∧
        (convertSPDIdxToReadIdxAndMaskInfo1D start count 0 outSize).2.2.lead = 0) := by
  constructor
  · intro start count nRows nCols h
    refine ⟨?_, ?_, ?_⟩
    · show ((List.range outSize).map
        (convertIdxBool2D start count nRows nCols outSize).1.outBool) = _
      have hb : (convertIdxBool2D start count nRows nCols outSize).1 =
          (⟨fun _ => false, fun _ => (0, 0)⟩ : MarkState (ℕ × ℕ)) := by
        show markRuns (bins2D start count nRows nCols) _ = _
        rw [bins2D_eq_nil start count nRows nCols h]
        rfl
      rw [hb]
      simp [List.map_const']
    · show (if 0 < nRows * nCols then gridMax2D count nRows nCols else 0) = 0
      rw [if_neg (by omega)]
    · show (if 0 < nRows * nCols then gridMax2D count nRows nCols else 0) = 0
      rw [if_neg (by omega)]
  · intro start count
    refine ⟨?_, ?_, ?_⟩
    · show ((List.range outSize).map
        (convertIdxBool1D start count 0 outSize).1.outBool) = _
      have hb : (convertIdxBool1D start count 0 outSize).1 =
          (⟨fun _ => false, fun _ => 0⟩ : MarkState ℕ) := by
        show markRuns (bins1D start count 0) _ = _
        have : bins1D start count 0 = [] := by simp [bins1D]
        rw [this]
        rfl
      rw [hb]
      simp [List.map_const']
    · show (if 0 < (0 : ℕ) then gridMax1D count 0 else 0) = 0
      rw [if_neg (by omega)]
    · show (if 0 < (0 : ℕ) then gridMax1D count 0 else 0) = 0
      rw [if_neg (by omega)]

theorem countP_range_interval (s e : ℕ) :
    ∀ n, (List.range n).countP (fun j => decide (s ≤ j ∧ j < e)) = min e n - min s n
  | 0 => by simp
  | n + 1 => by
    rw [countP_range_succ, countP_range_interval s e n]
    by_cases h : s ≤ n ∧ n < e
    · rw [if_pos (by simpa using h)]
      omega
    · rw [if_neg (by simpa using h)]
      omega

theorem foldl_max_init (l : List ℕ) : ∀ a : ℕ, a ≤ l.foldl max a := by
  induction l with
  | nil => intro a; simp
  | cons y t ih => intro a; exact le_trans (le_max_left a y) (ih (max a y))

theorem foldl_max_mem_le (l : List ℕ) : ∀ a x : ℕ, x ∈ l → x ≤ l.foldl max a := by
  induction l with
  | nil => intro a x hx; simp at hx
  | cons y t ih =>
    intro a x hx
    rcases List.mem_cons.mp hx with rfl | hx
    · exact le_trans (le_max_right a x) (foldl_max_init t _)
    · exact ih _ x hx

theorem foldl_max_cases (l : List ℕ) : ∀ a : ℕ, l.foldl max a = a ∨ l.foldl max a ∈ l := by
  induction l with
  | nil => intro a; left; rfl
  | cons y t ih =>
    intro a
    rcases ih (max a y) with h | h
    · by_cases hay : a ≤ y
      · right
        rw [List.foldl_cons, h, max_eq_right hay]
        exact List.mem_cons_self _ _
      · left
        rw [List.foldl_cons, h, max_eq_left (le_of_not_le hay)]
    · right
      rw [List.foldl_cons]
      exact List.mem_cons_of_mem _ h

theorem mem_grid2D_flat (count : ℕ → ℕ → ℕ) (nRows nCols x : ℕ) :
    (x ∈ (List.range nRows).flatMap fun r => (List.range nCols).map (count r)) ↔
      ∃ r, r < nRows ∧ ∃ c, c < nCols ∧ count r c = x := by
  simp only [List.mem_flatMap, List.mem_map, List.mem_range]

theorem gridMax2D_ge (count : ℕ → ℕ → ℕ) (nRows nCols r c : ℕ)
    (hr : r < nRows) (hc : c < nCols) : count r c ≤ gridMax2D count nRows nCols :=
  foldl_max_mem_le _ 0 _ ((mem_grid2D_flat count nRows nCols _).2 ⟨r, hr, c, hc, rfl⟩)

theorem gridMax2D_cases (count : ℕ → ℕ → ℕ) (nRows nCols : ℕ) :
    gridMax2D count nRows nCols = 0 ∨
      ∃ r, r < nRows ∧ ∃ c, c < nCols ∧ count r c = gridMax2D count nRows nCols := by
  rcases foldl_max_cases
      ((List.range nRows).flatMap fun r => (List.range nCols).map (count r)) 0 with h | h
  · exact Or.inl h
  · exact Or.inr ((mem_grid2D_flat count nRows nCols _).1 h)

theorem gridMax1D_ge (count : ℕ → ℕ) (nRows r : ℕ) (hr : r < nRows) :
    count r ≤ gridMax1D count nRows := by
  refine foldl_max_mem_le _ 0 _ ?_
  simp only [List.mem_map, List.mem_range]
  exact ⟨r, hr, rfl⟩

theorem gridMax1D_cases (count : ℕ → ℕ) (nRows : ℕ) :
    gridMax1D count nRows = 0 ∨ ∃ r, r < nRows ∧ count r = gridMax1D count nRows := by
  rcases foldl_max_cases ((List.range nRows).map count) 0 with h | h
  · exact Or.inl h
  · refine Or.inr ?_
    simp only [List.mem_map, List.mem_range] at h
    obtain ⟨r, hr, hx⟩ := h
    exact ⟨r, hr, hx⟩

theorem take_map_range_count (f : ℕ → Bool) (n m : ℕ) (hm : m ≤ n) :
    (((List.range n).map f).take m).count true = (List.range m).countP f := by
  rw [← List.map_take, List.take_range, min_eq_left hm]
  simp only [List.count_eq_countP, List.countP_map, Function.comp]
  apply List.countP_congr
  intro a ha
  simp

theorem convert2D_outBin (start count : ℕ → ℕ → ℕ) (nRows nCols : ℕ)
    (hdisj : ∀ r1 c1 r2 c2, r1 < nRows → c1 < nCols → r2 < nRows → c2 < nCols →
      ∀ j, start r1 c1 ≤ j → j < start r1 c1 + count r1 c1 →
        start r2 c2 ≤ j → j < start r2 c2 + count r2 c2 → (r1, c1) = (r2, c2))
    (r c j : ℕ) (hr : r < nRows) (hc : c < nCols)
    (hj : start r c ≤ j ∧ j < start r c + count r c) :
    (convertIdxBool2D start count nRows nCols 0).1.outBin j = (r, c) := by
  show (markRuns (bins2D start count nRows nCols)
    ⟨fun _ => false, fun _ => (0, 0)⟩).outBin j = (r, c)
  apply markRuns_outBin
  · exact ⟨((r, c), start r c, count r c),
      (mem_bins2D start count nRows nCols _).2 ⟨r, hr, c, hc, rfl⟩, hj⟩
  · intro t ht hrun
    rw [mem_bins2D] at ht
    obtain ⟨r', hr', c', hc', rfl⟩ := ht
    exact hdisj r' c' r c hr' hc' hr hc j hrun.1 hrun.2 hj.1 hj.2

theorem convert1D_outBin (start count : ℕ → ℕ) (nRows : ℕ)
    (hdisj : ∀ r1 r2, r1 < nRows → r2 < nRows →
      ∀ j, start r1 ≤ j → j < start r1 + count r1 →
        start r2 ≤ j → j < start r2 + count r2 → r1 = r2)
    (r j : ℕ) (hr : r < nRows)
    (hj : start r ≤ j ∧ j < start r + count r) :
    (convertIdxBool1D start count nRows 0).1.outBin j = r := by
  show (markRuns (bins1D start count nRows) ⟨fun _ => false, fun _ => 0⟩).outBin j = r
  apply markRuns_outBin
  · exact ⟨(r, start r, count r),
      (mem_bins1D start count nRows _).2 ⟨r, hr, rfl⟩, hj⟩
  · intro t ht hrun
    rw [mem_bins1D] at ht
    obtain ⟨r', hr', rfl⟩ := ht
    exact hdisj r' r hr' hr j hrun.1 hrun.2 hj.1 hj.2

theorem convert2D_pred (start count : ℕ → ℕ → ℕ) (nRows nCols : ℕ)
    (hdisj : ∀ r1 c1 r2 c2, r1 < nRows → c1 < nCols → r2 < nRows → c2 < nCols →
      ∀ j, start r1 c1 ≤ j → j < start r1 c1 + count r1 c1 →
        start r2 c2 ≤ j → j < start r2 c2 + count r2 c2 → (r1, c1) = (r2, c2))
    (r c : ℕ) (hr : r < nRows) (hc : c < nCols) (j : ℕ) :
    ((convertIdxBool2D start count nRows nCols 0).1.outBool j &&
        decide ((convertIdxBool2D start count nRows nCols 0).1.outBin j = (r, c))) =
      decide (start r c ≤ j ∧ j < start r c + count r c) := by
  by_cases hj : start r c ≤ j ∧ j < start r c + count r c
  · rw [decide_eq_true hj,
      (convert2D_outBool start count nRows nCols j).2 ⟨r, hr, c, hc, hj⟩,
      convert2D_outBin start count nRows nCols hdisj r c j hr hc hj]
    simp
  · rw [decide_eq_false hj]
    by_cases hsel : (convertIdxBool2D start count nRows nCols 0).1.outBool j = true
    · obtain ⟨r', hr', c', hc', hj'⟩ := (convert2D_outBool start count nRows nCols j).1 hsel
      rw [hsel, convert2D_outBin start count nRows nCols hdisj r' c' j hr' hc' hj']
      simp only [Bool.true_and]
      apply decide_eq_false
      intro heq
      apply hj
      have h1 : r' = r := congrArg Prod.fst heq
      have h2 : c' = c := congrArg Prod.snd heq
      subst h1
      subst h2
      exact hj'
    · rw [Bool.not_eq_true] at hsel
      rw [hsel]
      simp

theorem convert1D_pred (start count : ℕ → ℕ) (nRows : ℕ)
    (hdisj : ∀ r1 r2, r1 < nRows → r2 < nRows →
      ∀ j, start r1 ≤ j → j < start r1 + count r1 →
        start r2 ≤ j → j < start r2 + count r2 → r1 = r2)
    (r : ℕ) (hr : r < nRows) (j : ℕ) :
    ((convertIdxBool1D start count nRows 0).1.outBool j &&
        decide ((convertIdxBool1D start count nRows 0).1.outBin j = r)) =
      decide (start r ≤ j ∧ j < start r + count r) := by
  by_cases hj : start r ≤ j ∧ j < start r + count r
  · rw [decide_eq_true hj,
      (convert1D_outBool start count nRows j).2 ⟨r, hr, hj⟩,
      convert1D_outBin start count nRows hdisj r j hr hj]
    simp
  · rw [decide_eq_false hj]
    by_cases hsel : (convertIdxBool1D start count nRows 0).1.outBool j = true
    · obtain ⟨r', hr', hj'⟩ := (convert1D_outBool start count nRows j).1 hsel
      rw [hsel, convert1D_outBin start count nRows hdisj r' j hr' hj']
      simp only [Bool.true_and]
      apply decide_eq_false
      intro heq
      apply hj
      subst heq
      exact hj'
    · rw [Bool.not_eq_true] at hsel
      rw [hsel]
      simp

theorem convert2D_K (start count : ℕ → ℕ → ℕ) (nRows nCols n : ℕ)
    (hdisj : ∀ r1 c1 r2 c2, r1 < nRows → c1 < nCols → r2 < nRows → c2 < nCols →
      ∀ j, start r1 c1 ≤ j → j < start r1 c1 + count r1 c1 →
        start r2 c2 ≤ j → j < start r2 c2 + count r2 c2 → (r1, c1) = (r2, c2))
    (r c : ℕ) (hr : r < nRows) (hc : c < nCols) :
    (List.range n).countP
        (fun j => (convertIdxBool2D start count nRows nCols 0).1.outBool j &&
          decide ((convertIdxBool2D start count nRows nCols 0).1.outBin j = (r, c))) =
      min (start r c + count r c) n - min (start r c) n := by
  rw [List.countP_congr
    (fun j _ => by rw [convert2D_pred start count nRows nCols hdisj r c hr hc j])]
  exact countP_range_interval _ _ n

theorem convert1D_K (start count : ℕ → ℕ) (nRows n : ℕ)
    (hdisj : ∀ r1 r2, r1 < nRows → r2 < nRows →
      ∀ j, start r1 ≤ j → j < start r1 + count r1 →
        start r2 ≤ j → j < start r2 + count r2 → r1 = r2)
    (r : ℕ) (hr : r < nRows) :
    (List.range n).countP
        (fun j => (convertIdxBool1D start count nRows 0).1.outBool j &&
          decide ((convertIdxBool1D start count nRows 0).1.outBin j = r)) =
      min (start r + count r) n - min (start r) n := by
  rw [List.countP_congr
    (fun j _ => by rw [convert1D_pred start count nRows hdisj r hr j])]
  exact countP_range_interval _ _ n

/-- C3: for a start/count index with pairwise disjoint runs contained in
`[0, outSize)`, `convertSPDIdxToReadIdxAndMaskInfo` returns a ragged index
and validity mask whose leading dimension is the maximum count (0 for an
empty index); the validity mask is true at `(slot, bin)` exactly when
`slot >= count[bin]`; and for every valid slot, the ragged index holds the
element's ordinal position among all selected elements in increasing
absolute-index order.  The final group of conjuncts is the concrete 1D
scenario `count = [2,0,1]`, `start = [0,0,2]`, dataset size 3. -/
theorem convertSPDIdx_ragged_spec
    (start2 count2 : ℕ → ℕ → ℕ) (nRows2 nCols2 : ℕ)
    (start1 count1 : ℕ → ℕ) (nRows1 outSize : ℕ)
    (hdisj2 : ∀ r1 c1 r2 c2, r1 < nRows2 → c1 < nCols2 → r2 < nRows2 → c2 < nCols2 →
      ∀ j, start2 r1 c1 ≤ j → j < start2 r1 c1 + count2 r1 c1 →
        start2 r2 c2 ≤ j → j < start2 r2 c2 + count2 r2 c2 → (r1, c1) = (r2, c2))
    (hbound2 : ∀ r c, r < nRows2 → c < nCols2 → start2 r c + count2 r c ≤ outSize)
    (hdisj1 : ∀ r1 r2, r1 < nRows1 → r2 < nRows1 →
      ∀ j, start1 r1 ≤ j → j < start1 r1 + count1 r1 →
        start1 r2 ≤ j → j < start1 r2 + count1 r2 → r1 = r2)
    (hbound1 : ∀ r, r < nRows1 → start1 r + count1 r ≤ outSize) :
    ((∀ r c, r < nRows2 → c < nCols2 →
        count2 r c ≤
          (convertSPDIdxToReadIdxAndMaskInfo2D start2 count2 nRows2 nCols2 outSize).2.1.lead) ∧
      ((convertSPDIdxToReadIdxAndMaskInfo2D start2 count2 nRows2 nCols2 outSize).2.1.lead = 0 ∨
        ∃ r, r < nRows2 ∧ ∃ c, c < nCols2 ∧
          count2 r c =
            (convertSPDIdxToReadIdxAndMaskInfo2D start2 count2 nRows2 nCols2 outSize).2.1.lead) ∧
      ((convertSPDIdxToReadIdxAndMaskInfo2D start2 count2 nRows2 nCols2 outSize).2.2.lead =
        (convertSPDIdxToReadIdxAndMaskInfo2D start2 count2 nRows2 nCols2 outSize).2.1.lead) ∧
      (∀ r c, r < nRows2 → c < nCols2 → ∀ s,
        ((convertSPDIdxToReadIdxAndMaskInfo2D start2 count2 nRows2 nCols2
              outSize).2.2.entry (s, (r, c)) = true ↔ count2 r c ≤ s)) ∧
      (∀ r c, r < nRows2 → c < nCols2 → ∀ s, s < count2 r c →
        (convertSPDIdxToReadIdxAndMaskInfo2D start2 count2 nRows2 nCols2
            outSize).2.1.entry (s, (r, c)) =
          ((convertSPDIdxToReadIdxAndMaskInfo2D start2 count2 nRows2 nCols2
              outSize).1.take (start2 r c + s)).count true)) ∧
    ((∀ r, r < nRows1 →
        count1 r ≤
          (convertSPDIdxToReadIdxAndMaskInfo1D start1 count1 nRows1 outSize).2.1.lead) ∧
      ((convertSPDIdxToReadIdxAndMaskInfo1D start1 count1 nRows1 outSize).2.1.lead = 0 ∨
        ∃ r, r < nRows1 ∧
          count1 r =
            (convertSPDIdxToReadIdxAndMaskInfo1D start1 count1 nRows1 outSize).2.1.lead) ∧
      ((convertSPDIdxToReadIdxAndMaskInfo1D start1 count1 nRows1 outSize).2.2.lead =
        (convertSPDIdxToReadIdxAndMaskInfo1D start1 count1 nRows1 outSize).2.1.lead) ∧
      (∀ r, r < nRows1 → ∀ s,
        ((convertSPDIdxToReadIdxAndMaskInfo1D start1 count1 nRows1
              outSize).2.2.entry (s, r) = true ↔ count1 r ≤ s)) ∧
      (∀ r, r < nRows1 → ∀ s, s < count1 r →
        (convertSPDIdxToReadIdxAndMaskInfo1D start1 count1 nRows1
            outSize).2.1.entry (s, r) =
          ((convertSPDIdxToReadIdxAndMaskInfo1D start1 count1 nRows1
              outSize).1.take (start1 r + s)).count true)) ∧
    ((convertSPDIdxToReadIdxAndMaskInfo1D (fun r => [0, 0, 2].getD r 0)
          (fun r => [2, 0, 1].getD r 0) 3 3).1 = [true, true, true] ∧
      (convertSPDIdxToReadIdxAndMaskInfo1D (fun r => [0, 0, 2].getD r 0)
          (fun r => [2, 0, 1].getD r 0) 3 3).2.1.lead = 2 ∧
      (convertSPDIdxToReadIdxAndMaskInfo1D (fun r => [0, 0, 2].getD r 0)
          (fun r => [2, 0, 1].getD r 0) 3 3).2.1.entry (0, 0) = 0 ∧
      (convertSPDIdxToReadIdxAndMaskInfo1D (fun r => [0, 0, 2].getD r 0)
          (fun r => [2, 0, 1].getD r 0) 3 3).2.1.entry (1, 0) = 1 ∧
      (convertSPDIdxToReadIdxAndMaskInfo1D (fun r => [0, 0, 2].getD r 0)
          (fun r => [2, 0, 1].getD r 0) 3 3).2.1.entry (0, 2) = 2 ∧
      (convertSPDIdxToReadIdxAndMaskInfo1D (fun r => [0, 0, 2].getD r 0)
          (fun r => [2, 0, 1].getD r 0) 3 3).2.2.entry (0, 0) = false ∧
      (convertSPDIdxToReadIdxAndMaskInfo1D (fun r => [0, 0, 2].getD r 0)
          (fun r => [2, 0, 1].getD r 0) 3 3).2.2.entry (1, 0) = false ∧
      (convertSPDIdxToReadIdxAndMaskInfo1D (fun r => [0, 0, 2].getD r 0)
          (fun r => [2, 0, 1].getD r 0) 3 3).2.2.entry (0, 2) = false ∧
      (convertSPDIdxToReadIdxAndMaskInfo1D (fun r => [0, 0, 2].getD r 0)
          (fun r => [2, 0, 1].getD r 0) 3 3).2.2.entry (0, 1) = true ∧
      (convertSPDIdxToReadIdxAndMaskInfo1D (fun r => [0, 0, 2].getD r 0)
          (fun r => [2, 0, 1].getD r 0) 3 3).2.2.entry (1, 1) = true ∧
      (convertSPDIdxToReadIdxAndMaskInfo1D (fun r => [0, 0, 2].getD r 0)
          (fun r => [2, 0, 1].getD r 0) 3 3).2.2.entry (1, 2) = true) := by
  refine ⟨⟨?_, ?_, rfl, ?_, ?_⟩, ⟨?_, ?_, rfl, ?_, ?_⟩, ?_⟩
  · intro r c hr hc
    show count2 r c ≤ (if 0 < nRows2 * nCols2 then gridMax2D count2 nRows2 nCols2 else 0)
    rw [if_pos (by exact Nat.mul_pos (by omega) (by omega))]
    exact gridMax2D_ge count2 nRows2 nCols2 r c hr hc
  · by_cases hz : 0 < nRows2 * nCols2
    · rcases gridMax2D_cases count2 nRows2 nCols2 with h | ⟨r, hr, c, hc, h⟩
      · left
        show (if 0 < nRows2 * nCols2 then gridMax2D count2 nRows2 nCols2 else 0) = 0
        rw [if_pos hz]
        exact h
      · right
        refine ⟨r, hr, c, hc, ?_⟩
        show count2 r c = (if 0 < nRows2 * nCols2 then gridMax2D count2 nRows2 nCols2 else 0)
        rw [if_pos hz]
        exact h
    · left
      show (if 0 < nRows2 * nCols2 then gridMax2D count2 nRows2 nCols2 else 0) = 0
      rw [if_neg hz]
  · intro r c hr hc s
    show ((assignPass (convertIdxBool2D start2 count2 nRows2 nCols2 0).1.outBool
        (convertIdxBool2D start2 count2 nRows2 nCols2 0).1.outBin outSize).outMask
          (s, (r, c)) = true ↔ count2 r c ≤ s)
    have hm := assignPass_outMask
      (convertIdxBool2D start2 count2 nRows2 nCols2 0).1.outBool
      (convertIdxBool2D start2 count2 nRows2 nCols2 0).1.outBin s (r, c) outSize
    rw [convert2D_K start2 count2 nRows2 nCols2 outSize hdisj2 r c hr hc] at hm
    have hb := hbound2 r c hr hc
    rw [← Bool.not_eq_false, hm]
    omega
  · intro r c hr hc s hs
    have hb := hbound2 r c hr hc
    have hj : start2 r c + s < outSize := by omega
    have hsel : (convertIdxBool2D start2 count2 nRows2 nCols2 0).1.outBool
        (start2 r c + s) = true :=
      (convert2D_outBool start2 count2 nRows2 nCols2 _).2 ⟨r, hr, c, hc, by omega⟩
    have hidx := assignPass_outIdx
      (convertIdxBool2D start2 count2 nRows2 nCols2 0).1.outBool
      (convertIdxBool2D start2 count2 nRows2 nCols2 0).1.outBin outSize
      (start2 r c + s) hj hsel
    rw [convert2D_outBin start2 count2 nRows2 nCols2 hdisj2 r c (start2 r c + s) hr hc
      (by omega)] at hidx
    rw [convert2D_K start2 count2 nRows2 nCols2 (start2 r c + s) hdisj2 r c hr hc] at hidx
    rw [show min (start2 r c + count2 r c) (start2 r c + s) -
        min (start2 r c) (start2 r c + s) = s from by omega] at hidx
    show (assignPass (convertIdxBool2D start2 count2 nRows2 nCols2 0).1.outBool
        (convertIdxBool2D start2 count2 nRows2 nCols2 0).1.outBin outSize).outIdx
          (s, (r, c)) =
      (((List.range outSize).map
        (convertIdxBool2D start2 count2 nRows2 nCols2 outSize).1.outBool).take
          (start2 r c + s)).count true
    rw [hidx, take_map_range_count _ outSize _ (by omega)]
    rfl
  · intro r hr
    show count1 r ≤ (if 0 < nRows1 then gridMax1D count1 nRows1 else 0)
    rw [if_pos (by omega)]
    exact gridMax1D_ge count1 nRows1 r hr
  · by_cases hz : 0 < nRows1
    · rcases gridMax1D_cases count1 nRows1 with h | ⟨r, hr, h⟩
      · left
        show (if 0 < nRows1 then gridMax1D count1 nRows1 else 0) = 0
        rw [if_pos hz]
        exact h
      · right
        refine ⟨r, hr, ?_⟩
        show count1 r = (if 0 < nRows1 then gridMax1D count1 nRows1 else 0)
        rw [if_pos hz]
        exact h
    · left
      show (if 0 < nRows1 then gridMax1D count1 nRows1 else 0) = 0
      rw [if_neg hz]
  · intro r hr s
    show ((assignPass (convertIdxBool1D start1 count1 nRows1 0).1.outBool
        (convertIdxBool1D start1 count1 nRows1 0).1.outBin outSize).outMask
          (s, r) = true ↔ count1 r ≤ s)
    have hm := assignPass_outMask
      (convertIdxBool1D start1 count1 nRows1 0).1.outBool
      (convertIdxBool1D start1 count1 nRows1 0).1.outBin s r outSize
    rw [convert1D_K start1 count1 nRows1 outSize hdisj1 r hr] at hm
    have hb := hbound1 r hr
    rw [← Bool.not_eq_false, hm]
    omega
  · intro r hr s hs
    have hb := hbound1 r hr
    have hj : start1 r + s < outSize := by omega
    have hsel : (convertIdxBool1D start1 count1 nRows1 0).1.outBool
        (start1 r + s) = true :=
      (convert1D_outBool start1 count1 nRows1 _).2 ⟨r, hr, by omega⟩
    have hidx := assignPass_outIdx
      (convertIdxBool1D start1 count1 nRows1 0).1.outBool
      (convertIdxBool1D start1 count1 nRows1 0).1.outBin outSize
      (start1 r + s) hj hsel
    rw [convert1D_outBin start1 count1 nRows1 hdisj1 r (start1 r + s) hr
      (by omega)] at hidx
    rw [convert1D_K start1 count1 nRows1 (start1 r + s) hdisj1 r hr] at hidx
    rw [show min (start1 r + count1 r) (start1 r + s) -
        min (start1 r) (start1 r + s) = s from by omega] at hidx
    show (assignPass (convertIdxBool1D start1 count1 nRows1 0).1.outBool
        (convertIdxBool1D start1 count1 nRows1 0).1.outBin outSize).outIdx
          (s, r) =
      (((List.range outSize).map
        (convertIdxBool1D start1 count1 nRows1 outSize).1.outBool).take
          (start1 r + s)).count true
    rw [hidx, take_map_range_count _ outSize _ (by omega)]
    rfl
  · exact ⟨by decide, by decide, by decide, by decide, by decide, by decide,
      by decide, by decide, by decide, by decide, by decide⟩

theorem convertSPDIdx_ragged_spec_witness :
    (∀ r, r < 3 → ([0, 0, 2] : List ℕ).getD r 0 + ([2, 0, 1] : List ℕ).getD r 0 ≤ 3) ∧
      ((convertSPDIdxToReadIdxAndMaskInfo1D (fun r => [0, 0, 2].getD r 0)
            (fun r => [2, 0, 1].getD r 0) 3 3).1 = [true, true, true] ∧
        (convertSPDIdxToReadIdxAndMaskInfo1D (fun r => [0, 0, 2].getD r 0)
            (fun r => [2, 0, 1].getD r 0) 3 3).2.1.lead = 2 ∧
        (convertSPDIdxToReadIdxAndMaskInfo1D (fun r => [0, 0, 2].getD r 0)
            (fun r => [2, 0, 1].getD r 0) 3 3).2.1.entry (0, 0) = 0 ∧
        (convertSPDIdxToReadIdxAndMaskInfo1D (fun r => [0, 0, 2].getD r 0)
            (fun r => [2, 0, 1].getD r 0) 3 3).2.1.entry (1, 0) = 1 ∧
        (convertSPDIdxToReadIdxAndMaskInfo1D (fun r => [0, 0, 2].getD r 0)
            (fun r => [2, 0, 1].getD r 0) 3 3).2.1.entry (0, 2) = 2 ∧
        (convertSPDIdxToReadIdxAndMaskInfo1D (fun r => [0, 0, 2].getD r 0)
            (fun r => [2, 0, 1].getD r 0) 3 3).2.2.entry (0, 0) = false ∧
        (convertSPDIdxToReadIdxAndMaskInfo1D (fun r => [0, 0, 2].getD r 0)
            (fun r => [2, 0, 1].getD r 0) 3 3).2.2.entry (1, 0) = false ∧
        (convertSPDIdxToReadIdxAndMaskInfo1D (fun r => [0, 0, 2].getD r 0)
            (fun r => [2, 0, 1].getD r 0) 3 3).2.2.entry (0, 2) = false ∧
        (convertSPDIdxToReadIdxAndMaskInfo1D (fun r => [0, 0, 2].getD r 0)
            (fun r => [2, 0, 1].getD r 0) 3 3).2.2.entry (0, 1) = true ∧
        (convertSPDIdxToReadIdxAndMaskInfo1D (fun r => [0, 0, 2].getD r 0)
            (fun r => [2, 0, 1].getD r 0) 3 3).2.2.entry (1, 1) = true ∧
        (convertSPDIdxToReadIdxAndMaskInfo1D (fun r => [0, 0, 2].getD r 0)
            (fun r => [2, 0, 1].getD r 0) 3 3).2.2.entry (1, 2) = true) :=
  ⟨by decide,
    (convertSPDIdx_ragged_spec (fun _ _ => 0) (fun _ _ => 0) 0 0
        (fun r => [0, 0, 2].getD r 0) (fun r => [2, 0, 1].getD r 0) 3 3
        (fun r1 _ _ _ h1 => absurd h1 (Nat.not_lt_zero r1))
        (fun r _ h1 => absurd h1 (Nat.not_lt_zero r))
        (by
          intro r1 r2 hr1 hr2 j h1 h2 h3 h4
          interval_cases r1 <;> interval_cases r2 <;> simp_all <;> omega)
        (by decide)).2.2⟩

theorem convertSPDIdx_empty_spec_witness :
    (0 : ℕ) * 5 = 0 ∧
      ((convertSPDIdxToReadIdxAndMaskInfo2D (fun _ _ => 3) (fun _ _ => 4) 0 5 2).1 =
          List.replicate 2 false ∧
        (convertSPDIdxToReadIdxAndMaskInfo2D (fun _ _ => 3) (fun _ _ => 4) 0 5 2).2.1.lead = 0 ∧
        (convertSPDIdxToReadIdxAndMaskInfo2D (fun _ _ => 3) (fun _ _ => 4) 0 5 2).2.2.lead = 0) :=
  ⟨by decide, (convertSPDIdx_empty_spec 2).1 (fun _ _ => 3) (fun _ _ => 4) 0 5 (by decide)⟩

/-! ### Properties of CreateSpatialIndex and BuildSpatialIndexInternal -/

theorem BuildSpatialIndexInternal_count :
    ∀ (L : List ℕ) (i : ℕ) (s c : ℕ → ℕ) (bn : ℕ),
      (BuildSpatialIndexInternal L i s c).2 bn = c bn + L.count bn
  | [], i, s, c, bn => by simp [BuildSpatialIndexInternal]
  | a :: rest, i, s, c, bn => by
    rw [BuildSpatialIndexInternal]
    rw [BuildSpatialIndexInternal_count rest (i + 1) _ _ bn]
    by_cases hab : a = bn
    · subst hab
      rw [Function.update_same, List.count_cons_self]
      omega
    · have hne : bn ≠ a := fun h => hab h.symm
      rw [Function.update_noteq hne, List.count_cons_of_ne hne]

theorem BuildSpatialIndexInternal_start :
    ∀ (L : List ℕ) (i : ℕ) (s c : ℕ → ℕ) (bn : ℕ),
      (BuildSpatialIndexInternal L i s c).1 bn =
        if c bn = 0 ∧ bn ∈ L then i + L.indexOf bn else s bn
  | [], i, s, c, bn => by simp [BuildSpatialIndexInternal]
  | a :: rest, i, s, c, bn => by
    rw [BuildSpatialIndexInternal,
      BuildSpatialIndexInternal_start rest (i + 1) _ _ bn]
    by_cases hab : bn = a
    · subst hab
      rw [if_neg (fun hcon => by
        have hx := hcon.1
        rw [Function.update_same] at hx
        omega)]
      by_cases hc0 : c bn = 0
      · rw [if_pos hc0, Function.update_same,
          if_pos ⟨hc0, List.mem_cons_self bn rest⟩,
          List.indexOf_cons_self, Nat.add_zero]
      · rw [if_neg hc0, if_neg (fun hcon => hc0 hcon.1)]
    · have hupd : Function.update c a (c a + 1) bn = c bn := Function.update_noteq hab _ _
      have hs : (if c a = 0 then Function.update s a i else s) bn = s bn := by
        split
        · exact Function.update_noteq hab _ _
        · rfl
      by_cases hmm : c bn = 0 ∧ bn ∈ rest
      · rw [if_pos (by rw [hupd]; exact hmm),
          if_pos ⟨hmm.1, List.mem_cons_of_mem a hmm.2⟩,
          List.indexOf_cons_ne _ (fun h => hab h.symm)]
        omega
      · rw [if_neg (by rw [hupd]; exact hmm), hs]
        by_cases hcn : c bn = 0 ∧ bn ∈ a :: rest
        · exfalso
          rcases List.mem_cons.mp hcn.2 with h | h
          · exact hab h
          · exact hmm ⟨hcn.1, h⟩
        · rw [if_neg hcn]

theorem getD_mem_of_lt (l : List ℕ) (j : ℕ) (hj : j < l.length) : l.getD j 0 ∈ l := by
  rw [List.getD_eq_getElem?_getD, List.getElem?_eq_getElem hj]
  exact List.getElem_mem hj

theorem indexOf_add_count_le (bn : ℕ) :
    ∀ l : List ℕ, l.indexOf bn + l.count bn ≤ l.length
  | [] => by simp
  | a :: t => by
    by_cases hab : bn = a
    · subst hab
      rw [List.indexOf_cons_self, List.count_cons_self, List.length_cons]
      have := List.count_le_length bn t
      omega
    · rw [List.indexOf_cons_ne _ (fun h => hab h.symm),
        List.count_cons_of_ne hab, List.length_cons]
      have := indexOf_add_count_le bn t
      omega

/-- In a sorted list of naturals, position `j` holds value `bn` exactly
when `j` lies in the contiguous run `[indexOf bn, indexOf bn + count bn)`
of occurrences of `bn`. -/
theorem sorted_getD_iff :
    ∀ L : List ℕ, L.Sorted (· ≤ ·) → ∀ j bn, j < L.length →
      (L.getD j 0 = bn ↔ L.indexOf bn ≤ j ∧ j < L.indexOf bn + L.count bn)
  | [], _, j, bn, hj => by simp at hj
  | a :: rest, hsort, 0, bn, hj => by
    rw [List.getD_cons_zero]
    by_cases hab : a = bn
    · subst hab
      rw [List.indexOf_cons_self, List.count_cons_self]
      constructor
      · intro _
        omega
      · intro _
        rfl
    · constructor
      · intro h
        exact absurd h hab
      · rintro ⟨h1, _⟩
        rw [List.indexOf_cons_ne _ hab] at h1
        omega
  | a :: rest, hsort, j + 1, bn, hj => by
    rw [List.getD_cons_succ]
    have hrest : rest.Sorted (· ≤ ·) := hsort.of_cons
    have hall : ∀ x ∈ rest, a ≤ x := List.rel_of_sorted_cons hsort
    have hj2 : j < rest.length := by
      rw [List.length_cons] at hj
      omega
    have IH := sorted_getD_iff rest hrest j bn hj2
    by_cases hab : a = bn
    · subst hab
      rw [List.indexOf_cons_self, List.count_cons_self]
      by_cases hmem : a ∈ rest
      · have hidx0 : rest.indexOf a = 0 := by
          cases rest with
          | nil => simp at hmem
          | cons b t =>
            rcases List.mem_cons.mp hmem with h | h
            · rw [← h, List.indexOf_cons_self]
            · have hba : b ≤ a := List.rel_of_sorted_cons hrest a h
              have hba2 : a ≤ b := hall b (List.mem_cons_self b t)
              rw [le_antisymm hba hba2, List.indexOf_cons_self]
        rw [IH, hidx0]
        omega
      · have hcnt : rest.count a = 0 := List.count_eq_zero.mpr hmem
        rw [hcnt]
        constructor
        · intro h
          exact absurd (h ▸ getD_mem_of_lt rest j hj2) hmem
        · rintro ⟨_, h2⟩
          omega
    · rw [List.indexOf_cons_ne _ hab, List.count_cons_of_ne (fun h => hab h.symm)]
      rw [IH]
      omega

theorem bin_decomp_unique (nCols r1 c1 r2 c2 : ℕ) (hc1 : c1 < nCols) (hc2 : c2 < nCols)
    (h : r1 * nCols + c1 = r2 * nCols + c2) : r1 = r2 ∧ c1 = c2 := by
  have h0 : 0 < nCols := by omega
  have e1 : (r1 * nCols + c1) / nCols = r1 := by
    rw [mul_comm, Nat.mul_add_div h0, Nat.div_eq_of_lt hc1, Nat.add_zero]
  have e2 : (r2 * nCols + c2) / nCols = r2 := by
    rw [mul_comm, Nat.mul_add_div h0, Nat.div_eq_of_lt hc2, Nat.add_zero]
  have f1 : (r1 * nCols + c1) % nCols = c1 := by
    rw [mul_comm, Nat.mul_add_mod, Nat.mod_eq_of_lt hc1]
  have f2 : (r2 * nCols + c2) % nCols = c2 := by
    rw [mul_comm, Nat.mul_add_mod, Nat.mod_eq_of_lt hc2]
  constructor
  · rw [← e1, ← e2, h]
  · rw [← f1, ← f2, h]

theorem argsort_perm (key : List ℕ) : List.Perm (argsort key) (List.range key.length) :=
  List.perm_insertionSort _ _

theorem argsort_length (key : List ℕ) : (argsort key).length = key.length := by
  rw [(argsort_perm key).length_eq, List.length_range]

theorem argsort_sorted (key : List ℕ) :
    (argsort key).Sorted fun i j => key.getD i 0 ≤ key.getD j 0 := by
  haveI : IsTotal ℕ fun i j => key.getD i 0 ≤ key.getD j 0 :=
    ⟨fun a b => le_total _ _⟩
  haveI : IsTrans ℕ fun i j => key.getD i 0 ≤ key.getD j 0 :=
    ⟨fun a b c hab hbc => le_trans hab hbc⟩
  exact List.sorted_insertionSort _ _

theorem argsort_map_sorted (key : List ℕ) :
    ((argsort key).map fun i => key.getD i 0).Sorted (· ≤ ·) :=
  List.Pairwise.map _ (fun a b h => h) (argsort_sorted key)

theorem getD_map_lt {α β : Type} (f : α → β) (l : List α) (i : ℕ) (hi : i < l.length)
    (d : α) (d' : β) : (l.map f).getD i d' = f (l.getD i d) := by
  rw [List.getD_eq_getElem?_getD, List.getElem?_map, List.getElem?_eq_getElem hi,
    List.getD_eq_getElem?_getD, List.getElem?_eq_getElem hi]
  rfl

/-- C4: `CreateSpatialIndex` computes for each element the bin row
`floor((coordOneMax - coordOne) / binSize)` and bin column
`floor((coordTwo - coordTwoMin) / binSize)`; the validity mask is true at
`i` exactly when row and column lie inside `[0, nRows) x [0, nCols)`
(out-of-grid elements are excluded, no error is raised); and the returned
permutation is a permutation of the valid element positions that sorts
them by the combined bin number `row * nCols + col`. -/
theorem CreateSpatialIndex_binning_spec (coords : List (ℚ × ℚ)) (g : Grid) :
    ((CreateSpatialIndex coords g).1.length = coords.length ∧
      ∀ i, i < coords.length →
        ((CreateSpatialIndex coords g).1.getD i false = true ↔
          (0 ≤ rowOf g (coords.getD i (0, 0)) ∧ 0 ≤ colOf g (coords.getD i (0, 0)) ∧
            rowOf g (coords.getD i (0, 0)) < g.nRows ∧
            colOf g (coords.getD i (0, 0)) < g.nCols))) ∧
    (∀ c : ℚ × ℚ, rowOf g c = ⌊(g.coordOneMax - c.1) / g.binSize⌋ ∧
      colOf g c = ⌊(c.2 - g.coordTwoMin) / g.binSize⌋ ∧
      binNumOf g c = (rowOf g c).toNat * g.nCols + (colOf g c).toNat) ∧
    List.Perm (CreateSpatialIndex coords g).2.1
      (List.range (coords.filter (isValid g)).length) ∧
    ((CreateSpatialIndex coords g).2.1.map fun i =>
      ((coords.filter (isValid g)).map (binNumOf g)).getD i 0).Sorted (· ≤ ·) := by
  refine ⟨⟨?_, ?_⟩, fun c => ⟨rfl, rfl, rfl⟩, ?_, ?_⟩
  · show (coords.map (isValid g)).length = coords.length
    simp
  · intro i hi
    show ((coords.map (isValid g)).getD i false = true ↔ _)
    rw [getD_map_lt (isValid g) coords i hi (0, 0) false]
    simp [isValid]
  · show List.Perm (argsort ((coords.filter (isValid g)).map (binNumOf g))) _
    have h := argsort_perm ((coords.filter (isValid g)).map (binNumOf g))
    simpa using h
  · exact argsort_map_sorted _

theorem CreateSpatialIndex_binning_spec_witness :
    (0 : ℕ) < ([((3 : ℚ)/2, (1 : ℚ)/2), (1/2, 1/2), (1/2, 3/2)] : List (ℚ × ℚ)).length ∧
      ((CreateSpatialIndex [((3 : ℚ)/2, (1 : ℚ)/2), (1/2, 1/2), (1/2, 3/2)]
          ⟨1, 2, 0, 2, 2⟩).1.getD 0 false = true ↔
        (0 ≤ rowOf ⟨1, 2, 0, 2, 2⟩
            (([((3 : ℚ)/2, (1 : ℚ)/2), (1/2, 1/2), (1/2, 3/2)] :
              List (ℚ × ℚ)).getD 0 (0, 0)) ∧
          0 ≤ colOf ⟨1, 2, 0, 2, 2⟩
            (([((3 : ℚ)/2, (1 : ℚ)/2), (1/2, 1/2), (1/2, 3/2)] :
              List (ℚ × ℚ)).getD 0 (0, 0)) ∧
          rowOf ⟨1, 2, 0, 2, 2⟩
            (([((3 : ℚ)/2, (1 : ℚ)/2), (1/2, 1/2), (1/2, 3/2)] :
              List (ℚ × ℚ)).getD 0 (0, 0)) < (⟨1, 2, 0, 2, 2⟩ : Grid).nRows ∧
          colOf ⟨1, 2, 0, 2, 2⟩
            (([((3 : ℚ)/2, (1 : ℚ)/2), (1/2, 1/2), (1/2, 3/2)] :
              List (ℚ × ℚ)).getD 0 (0, 0)) < (⟨1, 2, 0, 2, 2⟩ : Grid).nCols)) :=
  ⟨by norm_num,
    (CreateSpatialIndex_binning_spec [((3 : ℚ)/2, (1 : ℚ)/2), (1/2, 1/2), (1/2, 3/2)]
      ⟨1, 2, 0, 2, 2⟩).1.2 0 (by norm_num)⟩

theorem sorted_runs_disjoint (L : List ℕ) (hs : L.Sorted (· ≤ ·)) (bn1 bn2 : ℕ)
    (hne : bn1 ≠ bn2) (j : ℕ) :
    ¬(((if bn1 ∈ L then L.indexOf bn1 else 0) ≤ j ∧
        j < (if bn1 ∈ L then L.indexOf bn1 else 0) + L.count bn1) ∧
      ((if bn2 ∈ L then L.indexOf bn2 else 0) ≤ j ∧
        j < (if bn2 ∈ L then L.indexOf bn2 else 0) + L.count bn2)) := by
  rintro ⟨⟨h1a, h1b⟩, h2a, h2b⟩
  by_cases hm1 : bn1 ∈ L
  · by_cases hm2 : bn2 ∈ L
    · rw [if_pos hm1] at h1a h1b
      rw [if_pos hm2] at h2a h2b
      have hj1 : j < L.length := by
        have := indexOf_add_count_le bn1 L
        omega
      have e1 : L.getD j 0 = bn1 := (sorted_getD_iff L hs j bn1 hj1).2 ⟨h1a, h1b⟩
      have e2 : L.getD j 0 = bn2 := (sorted_getD_iff L hs j bn2 hj1).2 ⟨h2a, h2b⟩
      exact hne (e1 ▸ e2)
    · rw [List.count_eq_zero.mpr hm2] at h2b
      omega
  · rw [List.count_eq_zero.mpr hm1] at h1b
    omega

theorem sorted_runs_cover (L : List ℕ) (hs : L.Sorted (· ≤ ·)) (j : ℕ) :
    (j < L.length ↔ ∃ bn, bn ∈ L ∧
      (if bn ∈ L then L.indexOf bn else 0) ≤ j ∧
      j < (if bn ∈ L then L.indexOf bn else 0) + L.count bn) := by
  constructor
  · intro hj
    refine ⟨L.getD j 0, getD_mem_of_lt L j hj, ?_⟩
    rw [if_pos (getD_mem_of_lt L j hj)]
    exact (sorted_getD_iff L hs j _ hj).1 rfl
  · rintro ⟨bn, hmem, h1, h2⟩
    rw [if_pos hmem] at h1 h2
    have := indexOf_add_count_le bn L
    omega

theorem isValid_props (g : Grid) (c : ℚ × ℚ) (h : isValid g c = true) :
    0 ≤ rowOf g c ∧ 0 ≤ colOf g c ∧ rowOf g c < g.nRows ∧ colOf g c < g.nCols := by
  simpa [isValid] using h

/-- C1: the index built by `CreateSpatialIndex` (via
`BuildSpatialIndexInternal`) satisfies: every valid element belongs to
exactly one bin; the per-bin ranges `[start, start + count)` over
positions of the sorted permutation are pairwise disjoint for distinct
grid bins; and their union is exactly `[0, number of valid elements)` —
no overlap and no gap (bins with `count = 0` have empty ranges and so are
covered by no range). -/
theorem CreateSpatialIndex_runs_partition (coords : List (ℚ × ℚ)) (g : Grid)
    (hbin : 0 < g.binSize) :
    (∀ c ∈ coords.filter (isValid g),
      ∃! p : ℕ × ℕ, p.1 < g.nRows ∧ p.2 < g.nCols ∧
        p.1 * g.nCols + p.2 = binNumOf g c) ∧
    (∀ p q : ℕ × ℕ, p.1 < g.nRows → p.2 < g.nCols → q.1 < g.nRows → q.2 < g.nCols →
      p ≠ q → ∀ j,
        ¬(((CreateSpatialIndex coords g).2.2.1 (p.1 * g.nCols + p.2) ≤ j ∧
            j < (CreateSpatialIndex coords g).2.2.1 (p.1 * g.nCols + p.2) +
              (CreateSpatialIndex coords g).2.2.2 (p.1 * g.nCols + p.2)) ∧
          ((CreateSpatialIndex coords g).2.2.1 (q.1 * g.nCols + q.2) ≤ j ∧
            j < (CreateSpatialIndex coords g).2.2.1 (q.1 * g.nCols + q.2) +
              (CreateSpatialIndex coords g).2.2.2 (q.1 * g.nCols + q.2)))) ∧
    (∀ j, j < (coords.filter (isValid g)).length ↔
      ∃ p : ℕ × ℕ, p.1 < g.nRows ∧ p.2 < g.nCols ∧
        (CreateSpatialIndex coords g).2.2.1 (p.1 * g.nCols + p.2) ≤ j ∧
        j < (CreateSpatialIndex coords g).2.2.1 (p.1 * g.nCols + p.2) +
          (CreateSpatialIndex coords g).2.2.2 (p.1 * g.nCols + p.2)) := by
  set key := (coords.filter (isValid g)).map (binNumOf g) with hkeydef
  set L := (argsort key).map (fun i => key.getD i 0) with hLdef
  have hsorted : L.Sorted (· ≤ ·) := argsort_map_sorted key
  have hstart : ∀ bn, (CreateSpatialIndex coords g).2.2.1 bn =
      if bn ∈ L then L.indexOf bn else 0 := by
    intro bn
    show (BuildSpatialIndexInternal L 0 (fun _ => 0) (fun _ => 0)).1 bn = _
    rw [BuildSpatialIndexInternal_start]
    by_cases h : bn ∈ L
    · rw [if_pos ⟨rfl, h⟩, if_pos h, Nat.zero_add]
    · rw [if_neg (fun hcon => h hcon.2), if_neg h]
  have hcount : ∀ bn, (CreateSpatialIndex coords g).2.2.2 bn = L.count bn := by
    intro bn
    show (BuildSpatialIndexInternal L 0 (fun _ => 0) (fun _ => 0)).2 bn = L.count bn
    rw [BuildSpatialIndexInternal_count]
    omega
  have hLlen : L.length = (coords.filter (isValid g)).length := by
    rw [hLdef, List.length_map, argsort_length, hkeydef, List.length_map]
  have hmemL : ∀ bn ∈ L, ∃ c ∈ coords.filter (isValid g), binNumOf g c = bn := by
    intro bn hbn
    rw [hLdef] at hbn
    obtain ⟨i, hi, rfl⟩ := List.mem_map.mp hbn
    have hir : i ∈ List.range key.length := (argsort_perm key).subset hi
    rw [List.mem_range] at hir
    have hmem := getD_mem_of_lt key i hir
    rw [hkeydef] at hmem
    obtain ⟨c, hc, hcb⟩ := List.mem_map.mp hmem
    exact ⟨c, hc, hcb⟩
  refine ⟨?_, ?_, ?_⟩
  · intro c hc
    have hv : isValid g c = true := (List.mem_filter.mp hc).2
    obtain ⟨h1, h2, h3, h4⟩ := isValid_props g c hv
    refine ⟨((rowOf g c).toNat, (colOf g c).toNat), ⟨by omega, by omega, rfl⟩, ?_⟩
    rintro ⟨r, cc⟩ ⟨hr, hcc, heq⟩
    have hu := bin_decomp_unique g.nCols r cc (rowOf g c).toNat (colOf g c).toNat
      hcc (by omega) heq
    exact Prod.ext hu.1 hu.2
  · intro p q hp1 hp2 hq1 hq2 hne j
    have hbn : p.1 * g.nCols + p.2 ≠ q.1 * g.nCols + q.2 := by
      intro h
      have hu := bin_decomp_unique g.nCols p.1 p.2 q.1 q.2 hp2 hq2 h
      exact hne (Prod.ext hu.1 hu.2)
    rw [hstart, hstart, hcount, hcount]
    exact sorted_runs_disjoint L hsorted _ _ hbn j
  · intro j
    rw [← hLlen]
    constructor
    · intro hj
      obtain ⟨bn, hbnL, hrange⟩ := (sorted_runs_cover L hsorted j).1 hj
      obtain ⟨c, hcf, hcb⟩ := hmemL bn hbnL
      have hv : isValid g c = true := (List.mem_filter.mp hcf).2
      obtain ⟨h1, h2, h3, h4⟩ := isValid_props g c hv
      have hb2 : (rowOf g c).toNat * g.nCols + (colOf g c).toNat = bn := hcb
      refine ⟨((rowOf g c).toNat, (colOf g c).toNat), by omega, by omega, ?_, ?_⟩
      · rw [hstart]
        show (if ((rowOf g c).toNat * g.nCols + (colOf g c).toNat) ∈ L then
          L.indexOf ((rowOf g c).toNat * g.nCols + (colOf g c).toNat) else 0) ≤ j
        rw [hb2]
        exact hrange.1
      · rw [hstart, hcount]
        show j < (if ((rowOf g c).toNat * g.nCols + (colOf g c).toNat) ∈ L then
            L.indexOf ((rowOf g c).toNat * g.nCols + (colOf g c).toNat) else 0) +
          L.count ((rowOf g c).toNat * g.nCols + (colOf g c).toNat)
        rw [hb2]
        exact hrange.2
    · rintro ⟨p, hp1, hp2, hr1, hr2⟩
      rw [hstart] at hr1 hr2
      rw [hcount] at hr2
      by_cases hm : (p.1 * g.nCols + p.2) ∈ L
      · rw [if_pos hm] at hr1 hr2
        have := indexOf_add_count_le (p.1 * g.nCols + p.2) L
        omega
      · rw [if_neg hm] at hr1 hr2
        rw [List.count_eq_zero.mpr hm] at hr2
        omega

theorem CreateSpatialIndex_runs_partition_witness :
    (0 : ℚ) < 1 ∧
      ((0 : ℕ) < (([((3 : ℚ)/2, (1 : ℚ)/2), (1/2, 1/2), (1/2, 3/2)] :
            List (ℚ × ℚ)).filter (isValid ⟨1, 2, 0, 2, 2⟩)).length ↔
        ∃ p : ℕ × ℕ, p.1 < (⟨1, 2, 0, 2, 2⟩ : Grid).nRows ∧
          p.2 < (⟨1, 2, 0, 2, 2⟩ : Grid).nCols ∧
          (CreateSpatialIndex [((3 : ℚ)/2, (1 : ℚ)/2), (1/2, 1/2), (1/2, 3/2)]
              ⟨1, 2, 0, 2, 2⟩).2.2.1 (p.1 * (⟨1, 2, 0, 2, 2⟩ : Grid).nCols + p.2) ≤ 0 ∧
          0 < (CreateSpatialIndex [((3 : ℚ)/2, (1 : ℚ)/2), (1/2, 1/2), (1/2, 3/2)]
              ⟨1, 2, 0, 2, 2⟩).2.2.1 (p.1 * (⟨1, 2, 0, 2, 2⟩ : Grid).nCols + p.2) +
            (CreateSpatialIndex [((3 : ℚ)/2, (1 : ℚ)/2), (1/2, 1/2), (1/2, 3/2)]
              ⟨1, 2, 0, 2, 2⟩).2.2.2 (p.1 * (⟨1, 2, 0, 2, 2⟩ : Grid).nCols + p.2)) :=
  ⟨by norm_num,
    (CreateSpatialIndex_runs_partition [((3 : ℚ)/2, (1 : ℚ)/2), (1/2, 1/2), (1/2, 3/2)]
      ⟨1, 2, 0, 2, 2⟩ (by norm_num)).2.2 0⟩

/-! ### Properties of the cache and the write path of the SPDV4 index -/

theorem snapToGrid_of_diff_int (val valOn res : ℚ) (k : ℤ) (hres : res ≠ 0)
    (h : val - valOn = k * res) : snapToGrid val valOn res = val := by
  unfold snapToGrid
  rw [h, mul_div_cancel_right₀ _ hres, round_intCast]
  linarith

/-- C7: querying the pulse space twice with an equal extent returns, on
the second call, the bit-identical cached triple and leaves the state
unchanged; querying with an extent different from the cached one computes
fresh results and replaces the one-entry cache with them. -/
theorem getPulsesSpaceForExtent_cache (st : GridIndex) (e e2 : Extent) (ov ov2 : ℤ) :
    (getPulsesSpaceForExtent (getPulsesSpaceForExtent st e ov).2 e ov2 =
      ((getPulsesSpaceForExtent st e ov).1, (getPulsesSpaceForExtent st e ov).2) ∧
      (getPulsesSpaceForExtent (getPulsesSpaceForExtent st e ov).2 e ov2).1 =
        ((getPulsesSpaceForExtent st e ov).2.lastPulseSpace,
         (getPulsesSpaceForExtent st e ov).2.lastPulseIdx,
         (getPulsesSpaceForExtent st e ov).2.lastPulseIdxMask)) ∧
    (st.lastExtent ≠ some e2 →
      (getPulsesSpaceForExtent st e2 ov).1 = computePulsesSpaceForExtent st e2 ov ∧
      (getPulsesSpaceForExtent st e2 ov).2.lastExtent = some e2 ∧
      (getPulsesSpaceForExtent st e2 ov).2.lastPulseSpace =
        (computePulsesSpaceForExtent st e2 ov).1 ∧
      (getPulsesSpaceForExtent st e2 ov).2.lastPulseIdx =
        (computePulsesSpaceForExtent st e2 ov).2.1 ∧
      (getPulsesSpaceForExtent st e2 ov).2.lastPulseIdxMask =
        (computePulsesSpaceForExtent st e2 ov).2.2) := by
  constructor
  · by_cases h : st.lastExtent = some e
    · simp [getPulsesSpaceForExtent, h]
    · simp [getPulsesSpaceForExtent, h]
  · intro h
    simp [getPulsesSpaceForExtent, h]

theorem getPulsesSpaceForExtent_cache_witness :
    ((⟨⟨0, 1, 0, 1, 1, 1⟩, (1, 1), fun _ => 0, fun _ => 0, 0, none, [],
        ⟨0, fun _ => 0⟩, ⟨0, fun _ => true⟩⟩ : GridIndex).lastExtent ≠
        some ⟨0, 1, 0, 1⟩) ∧
      (getPulsesSpaceForExtent
          ⟨⟨0, 1, 0, 1, 1, 1⟩, (1, 1), fun _ => 0, fun _ => 0, 0, none, [],
            ⟨0, fun _ => 0⟩, ⟨0, fun _ => true⟩⟩ ⟨0, 1, 0, 1⟩ 0).2.lastExtent =
        some ⟨0, 1, 0, 1⟩ :=
  ⟨by simp,
    ((getPulsesSpaceForExtent_cache
        ⟨⟨0, 1, 0, 1, 1, 1⟩, (1, 1), fun _ => 0, fun _ => 0, 0, none, [],
          ⟨0, fun _ => 0⟩, ⟨0, fun _ => true⟩⟩ ⟨0, 1, 0, 1⟩ ⟨0, 1, 0, 1⟩ 0 0).2
      (by simp)).2.1⟩

/-- C6: for an extent snapped to the grid (window `[a, b) x [t, btm)` in
bin coordinates), `setPulsesForExtent` builds a fresh batch index with
`CreateSpatialIndex`, adds `lastPulseID` to every start value before
writing, writes the batch start/count values into the persisted arrays at
the slice pair located with margin 0 (the window clamped to the grid
shape), leaves all other cells unchanged, and returns the batch
restricted to in-grid pulses reordered into bin-sorted order —
`pulses[mask][sortedBins]` — together with that mask and permutation. -/
theorem setPulsesForExtent_spec (st : GridIndex) (extent : Extent)
    (pulses : List Pulse) (lastPulseID : ℕ) (a b t btm Wg Hg : ℤ)
    (hres : 0 < st.pixelGrid.xRes) (hsq : st.pixelGrid.yRes = st.pixelGrid.xRes)
    (he1 : extent.xMin = st.pixelGrid.xMin + a * st.pixelGrid.xRes)
    (he2 : extent.xMax = st.pixelGrid.xMin + b * st.pixelGrid.xRes)
    (he3 : extent.yMax = st.pixelGrid.yMax - t * st.pixelGrid.yRes)
    (he4 : extent.yMin = st.pixelGrid.yMax - btm * st.pixelGrid.yRes)
    (hgx : st.pixelGrid.xMax = st.pixelGrid.xMin + Wg * st.pixelGrid.xRes)
    (hgy : st.pixelGrid.yMin = st.pixelGrid.yMax - Hg * st.pixelGrid.yRes)
    (hab : a ≤ b) (htb : t ≤ btm) :
    ((setPulsesForExtent st extent pulses lastPulseID).1 =
      (fancyIndex
          (boolIndex pulses
            (CreateSpatialIndex (pulses.map fun p => (p.yIdx, p.xIdx))
              ⟨st.pixelGrid.xRes, extent.yMax, extent.xMin,
                (btm - t).toNat, (b - a).toNat⟩).1)
          (CreateSpatialIndex (pulses.map fun p => (p.yIdx, p.xIdx))
            ⟨st.pixelGrid.xRes, extent.yMax, extent.xMin,
              (btm - t).toNat, (b - a).toNat⟩).2.1,
        (CreateSpatialIndex (pulses.map fun p => (p.yIdx, p.xIdx))
          ⟨st.pixelGrid.xRes, extent.yMax, extent.xMin,
            (btm - t).toNat, (b - a).toNat⟩).1,
        (CreateSpatialIndex (pulses.map fun p => (p.yIdx, p.xIdx))
          ⟨st.pixelGrid.xRes, extent.yMax, extent.xMin,
            (btm - t).toNat, (b - a).toNat⟩).2.1)) ∧
    (∀ r c : ℤ,
      max t 0 ≤ r → r < min btm (st.siShape.1 : ℤ) →
      max a 0 ≤ c → c < min b (st.siShape.2 : ℤ) →
      (setPulsesForExtent st extent pulses lastPulseID).2.si_idx (r, c) =
          (CreateSpatialIndex (pulses.map fun p => (p.yIdx, p.xIdx))
            ⟨st.pixelGrid.xRes, extent.yMax, extent.xMin,
              (btm - t).toNat, (b - a).toNat⟩).2.2.1
            ((r - t).toNat * (b - a).toNat + (c - a).toNat) + lastPulseID ∧
        (setPulsesForExtent st extent pulses lastPulseID).2.si_cnt (r, c) =
          (CreateSpatialIndex (pulses.map fun p => (p.yIdx, p.xIdx))
            ⟨st.pixelGrid.xRes, extent.yMax, extent.xMin,
              (btm - t).toNat, (b - a).toNat⟩).2.2.2
            ((r - t).toNat * (b - a).toNat + (c - a).toNat)) ∧
    (∀ r c : ℤ,
      ¬(max t 0 ≤ r ∧ r < min btm (st.siShape.1 : ℤ) ∧
        max a 0 ≤ c ∧ c < min b (st.siShape.2 : ℤ)) →
      (setPulsesForExtent st extent pulses lastPulseID).2.si_idx (r, c) =
          st.si_idx (r, c) ∧
        (setPulsesForExtent st extent pulses lastPulseID).2.si_cnt (r, c) =
          st.si_cnt (r, c)) := by
  have hx0 : st.pixelGrid.xRes ≠ 0 := ne_of_gt hres
  have hyres : 0 < st.pixelGrid.yRes := by rw [hsq]; exact hres
  have hy0 : st.pixelGrid.yRes ≠ 0 := ne_of_gt hyres
  have hs1 : snapToGrid extent.xMin st.pixelGrid.xMin st.pixelGrid.xRes = extent.xMin :=
    snapToGrid_of_diff_int _ _ _ a hx0 (by rw [he1]; push_cast; ring)
  have hs2 : snapToGrid extent.xMax st.pixelGrid.xMax st.pixelGrid.xRes = extent.xMax :=
    snapToGrid_of_diff_int _ _ _ (b - Wg) hx0 (by rw [he2, hgx]; push_cast; ring)
  have hs3 : snapToGrid extent.yMin st.pixelGrid.yMin st.pixelGrid.yRes = extent.yMin :=
    snapToGrid_of_diff_int _ _ _ (Hg - btm) hy0 (by rw [he4, hgy]; push_cast; ring)
  have hs4 : snapToGrid extent.yMax st.pixelGrid.yMax st.pixelGrid.yRes = extent.yMax :=
    snapToGrid_of_diff_int _ _ _ (-t) hy0 (by rw [he3]; push_cast; ring)
  have hnr : (⌈(extent.yMax - extent.yMin) / st.pixelGrid.xRes⌉).toNat = (btm - t).toNat := by
    rw [he3, he4, hsq,
      show st.pixelGrid.yMax - t * st.pixelGrid.xRes -
          (st.pixelGrid.yMax - btm * st.pixelGrid.xRes) =
        ((btm - t : ℤ) : ℚ) * st.pixelGrid.xRes from by push_cast; ring,
      mul_div_cancel_right₀ _ hx0, Int.ceil_intCast]
  have hnc : (⌈(extent.xMax - extent.xMin) / st.pixelGrid.xRes⌉).toNat = (b - a).toNat := by
    rw [he1, he2,
      show st.pixelGrid.xMin + b * st.pixelGrid.xRes -
          (st.pixelGrid.xMin + a * st.pixelGrid.xRes) =
        ((b - a : ℤ) : ℚ) * st.pixelGrid.xRes from by push_cast; ring,
      mul_div_cancel_right₀ _ hx0, Int.ceil_intCast]
  have hcall : getSlicesForExtent st.pixelGrid st.siShape 0
      extent.xMin extent.xMax extent.yMin extent.yMax =
    getSlicesForExtent st.pixelGrid (st.siShape.1, st.siShape.2) 0
      (st.pixelGrid.xMin + a * st.pixelGrid.xRes)
      (st.pixelGrid.xMin + b * st.pixelGrid.xRes)
      (st.pixelGrid.yMax - btm * st.pixelGrid.yRes)
      (st.pixelGrid.yMax - t * st.pixelGrid.yRes) := by
    rw [he1, he2, he3, he4]
  have hspec := getSlicesForExtent_spec st.pixelGrid st.siShape.1 st.siShape.2 0
    a b t btm hres hyres le_rfl hab htb
  simp only [setPulsesForExtent, hs1, hs2, hs3, hs4, hnr, hnc, hcall]
  rcases hD : getSlicesForExtent st.pixelGrid (st.siShape.1, st.siShape.2) 0
      (st.pixelGrid.xMin + (a : ℚ) * st.pixelGrid.xRes)
      (st.pixelGrid.xMin + (b : ℚ) * st.pixelGrid.xRes)
      (st.pixelGrid.yMax - (btm : ℚ) * st.pixelGrid.yRes)
      (st.pixelGrid.yMax - (t : ℚ) * st.pixelGrid.yRes) with
    _ | ⟨⟨⟨i1lo, i1hi⟩, ⟨i2lo, i2hi⟩⟩, ⟨⟨s1lo, s1hi⟩, ⟨s2lo, s2hi⟩⟩⟩
  · have hnone := hspec.1.mp hD
    refine ⟨trivial, ?_, ?_⟩
    · intro r c h1 h2 h3 h4
      exfalso
      omega
    · intro r c _
      exact ⟨rfl, rfl⟩
  · obtain ⟨e1, e2, e3, e4, e5, e6, e7, e8⟩ :=
      hspec.2.1 (⟨i1lo, i1hi⟩, ⟨i2lo, i2hi⟩) (⟨s1lo, s1hi⟩, ⟨s2lo, s2hi⟩) hD
    dsimp only at e1 e2 e3 e4 e5 e6 e7 e8
    refine ⟨trivial, ?_, ?_⟩
    · intro r c h1 h2 h3 h4
      constructor
      · show sliceAssign st.si_idx (⟨s1lo, s1hi⟩, ⟨s2lo, s2hi⟩) _
          (⟨i1lo, i1hi⟩, ⟨i2lo, i2hi⟩) (r, c) = _
        rw [sliceAssign, if_pos (by dsimp only; omega)]
        dsimp only [toFlat]
        rw [show i1lo + (r - s1lo) = r - t from by omega,
          show i2lo + (c - s2lo) = c - a from by omega]
      · show sliceAssign st.si_cnt (⟨s1lo, s1hi⟩, ⟨s2lo, s2hi⟩) _
          (⟨i1lo, i1hi⟩, ⟨i2lo, i2hi⟩) (r, c) = _
        rw [sliceAssign, if_pos (by dsimp only; omega)]
        dsimp only [toFlat]
        rw [show i1lo + (r - s1lo) = r - t from by omega,
          show i2lo + (c - s2lo) = c - a from by omega]
    · intro r c hne
      constructor
      · show sliceAssign st.si_idx (⟨s1lo, s1hi⟩, ⟨s2lo, s2hi⟩) _
          (⟨i1lo, i1hi⟩, ⟨i2lo, i2hi⟩) (r, c) = _
        rw [sliceAssign, if_neg (by dsimp only; omega)]
      · show sliceAssign st.si_cnt (⟨s1lo, s1hi⟩, ⟨s2lo, s2hi⟩) _
          (⟨i1lo, i1hi⟩, ⟨i2lo, i2hi⟩) (r, c) = _
        rw [sliceAssign, if_neg (by dsimp only; omega)]

theorem setPulsesForExtent_spec_witness :
    (0 : ℚ) < 1 ∧ (0 : ℤ) ≤ 1 ∧
      ((setPulsesForExtent
            ⟨⟨0, 2, 0, 2, 1, 1⟩, (2, 2), fun _ => 0, fun _ => 0, 0, none, [],
              ⟨0, fun _ => 0⟩, ⟨0, fun _ => true⟩⟩
            ⟨0, 1, 1, 2⟩ [⟨3/2, 1/2⟩] 7).2.si_idx (0, 0) =
          (CreateSpatialIndex (([⟨3/2, 1/2⟩] : List Pulse).map fun p => (p.yIdx, p.xIdx))
            ⟨1, 2, 0, ((1 : ℤ) - 0).toNat, ((1 : ℤ) - 0).toNat⟩).2.2.1
            (((0 : ℤ) - 0).toNat * ((1 : ℤ) - 0).toNat + ((0 : ℤ) - 0).toNat) + 7 ∧
        (setPulsesForExtent
            ⟨⟨0, 2, 0, 2, 1, 1⟩, (2, 2), fun _ => 0, fun _ => 0, 0, none, [],
              ⟨0, fun _ => 0⟩, ⟨0, fun _ => true⟩⟩
            ⟨0, 1, 1, 2⟩ [⟨3/2, 1/2⟩] 7).2.si_cnt (0, 0) =
          (CreateSpatialIndex (([⟨3/2, 1/2⟩] : List Pulse).map fun p => (p.yIdx, p.xIdx))
            ⟨1, 2, 0, ((1 : ℤ) - 0).toNat, ((1 : ℤ) - 0).toNat⟩).2.2.2
            (((0 : ℤ) - 0).toNat * ((1 : ℤ) - 0).toNat + ((0 : ℤ) - 0).toNat)) :=
  ⟨by norm_num, by norm_num,
    (setPulsesForExtent_spec
        ⟨⟨0, 2, 0, 2, 1, 1⟩, (2, 2), fun _ => 0, fun _ => 0, 0, none, [],
          ⟨0, fun _ => 0⟩, ⟨0, fun _ => true⟩⟩
        ⟨0, 1, 1, 2⟩ [⟨3/2, 1/2⟩] 7 0 1 0 1 2 2
        (by norm_num) rfl (by norm_num) (by norm_num) (by norm_num) (by norm_num)
        (by norm_num) (by norm_num) (by norm_num) (by norm_num)).2.1 0 0
      (by decide) (by decide) (by decide) (by decide)⟩

end Pylidar
